import Mathlib

/-!
Verification of the DWARF debugging-information core (`libdrgn/type_index.h`):
a shallow embedding of the DWARF expression evaluator, the DWARF 4/5 location
list walkers, the member bit-offset computation, and the CFI (call frame
information) engine, together with proofs of the specification claims.

Machine integers are modelled as `Nat`/`Int` with explicit reduction modulo
`2 ^ width` wherever the C code relies on fixed-width wraparound.  Byte
streams are `List Nat` (each entry one byte).  Loops that the C code bounds
by stream position or by its explicit operation budget are written with a
structural fuel parameter; the distinguished error `DrgnErr.out_of_fuel` is a
model artifact that is unreachable for the fuel supplied by the top-level
wrappers.
-/

/-- `uint_max n` (util.h, used throughout): largest value of an `n`-byte
unsigned integer, `2 ^ (8 n) - 1`. -/
def uint_max (n : Nat) : Nat := 2 ^ (8 * n) - 1

/-- Reduce an `Int` result modulo `2 ^ bits`, as produced by C unsigned
wraparound followed by `& address_mask` (`PUSH_MASK` and friends). -/
def umask_int (v : Int) (bits : Nat) : Nat := (v % ((2 : Int) ^ bits)).toNat

/-- `truncate_signed(x, bits)` (util.h, modelled from the spec: operands are
"compared as signed"): reinterpret the low `bits` bits of `x` as a two's
complement signed value. -/
def truncate_signed (x : Nat) (bits : Nat) : Int :=
  let m := x % 2 ^ bits
  if m < 2 ^ (bits - 1) then (m : Int) else (m : Int) - (2 : Int) ^ bits

/-- Value of a byte list read as one integer, least-significant byte first
when `little` is true (`copy_lsbytes`, modelled from the spec). -/
def bytes_value (little : Bool) (bs : List Nat) : Nat :=
  if little then bs.foldr (fun b acc => b + 256 * acc) 0
  else bs.foldl (fun acc b => 256 * acc + b) 0

/-- Little-endian byte encoding of `v` in `n` bytes (test-vector builder for
the binary-buffer readers). -/
def nat_to_bytes_le : Nat → Nat → List Nat
  | 0, _ => []
  | n + 1, v => v % 256 :: nat_to_bytes_le n (v / 256)

/-- Structured error kinds raised by the core (drgn_error; buffer errors are
collapsed to their kind, dropping the formatted message). -/
inductive DrgnErr where
  | out_of_bounds
  | stack_underflow
  | division_by_zero
  | modulo_by_zero
  | branch_out_of_bounds
  | invalid_deref_size
  | too_many_ops
  | unknown_opcode (op : Nat)
  | not_found
  | memory_error
  | invalid_fb_opcode (op : Nat)
  | stray_fb_ops
  | addr_table_error
  | recursion
  | offset_too_large
  | advance_overflow
  | set_loc_not_greater
  | incompatible_cfa_rule
  | restore_state_empty
  | unknown_cfi_opcode (op : Nat)
  | invalid_initial_opcode (op : Nat)
  | unknown_encoding (enc : Nat)
  | unknown_lle_kind (k : Nat)
  | unknown_augmentation
  | invalid_attr
  | missing_member_size
  | no_low_pc
  | missing_die
  | out_of_fuel
deriving DecidableEq

/-- `binary_buffer` positional byte read (binary_buffer.h, modelled from the
spec: "bounds-checked ... decoder"): one byte at `pos`, bounded by `endPos`. -/
def read_u8 (data : List Nat) (endPos pos : Nat) : Option (Nat × Nat) :=
  if pos < endPos then some (data.getD pos 0, pos + 1) else none

/-- Fixed-width integer read of `n` bytes in the module's byte order
(binary_buffer.h `next_u16/u32/u64/uint`, modelled from the spec). -/
def read_uint (data : List Nat) (endPos pos n : Nat) (little : Bool) :
    Option (Nat × Nat) :=
  if pos + n ≤ endPos then
    some (bytes_value little ((data.drop pos).take n), pos + n)
  else none

/-- Helper loop for ULEB128 decoding; `fuel` bounds the number of groups. -/
def read_uleb_go (data : List Nat) (endPos : Nat) :
    Nat → Nat → Nat → Nat → Option (Nat × Nat)
  | 0, _, _, _ => none
  | fuel + 1, pos, shift, acc =>
    if pos < endPos then
      let b := data.getD pos 0
      let acc' := acc + (b % 128) * 2 ^ shift
      if b < 128 then some (acc', pos + 1)
      else read_uleb_go data endPos fuel (pos + 1) (shift + 7) acc'
    else none

/-- ULEB128 read (binary_buffer.h `next_uleb128`, modelled from the spec);
the decoded value is stored in a 64-bit container, hence reduced mod
`2 ^ 64`. -/
def read_uleb (data : List Nat) (endPos pos : Nat) : Option (Nat × Nat) :=
  match read_uleb_go data endPos (endPos - pos) pos 0 0 with
  | none => none
  | some (v, pos') => some (v % 2 ^ 64, pos')

/-- Helper loop for SLEB128 decoding: returns the raw unsigned accumulation,
the total bit width consumed, the final byte, and the new position. -/
def read_sleb_go (data : List Nat) (endPos : Nat) :
    Nat → Nat → Nat → Nat → Option (Nat × Nat × Nat × Nat)
  | 0, _, _, _ => none
  | fuel + 1, pos, shift, acc =>
    if pos < endPos then
      let b := data.getD pos 0
      let acc' := acc + (b % 128) * 2 ^ shift
      if b < 128 then some (acc', shift + 7, b, pos + 1)
      else read_sleb_go data endPos fuel (pos + 1) (shift + 7) acc'
    else none

/-- SLEB128 read (binary_buffer.h `next_sleb128`, modelled from the spec);
sign-extended from the final group and truncated to a signed 64-bit
container. -/
def read_sleb (data : List Nat) (endPos pos : Nat) : Option (Int × Nat) :=
  match read_sleb_go data endPos (endPos - pos) pos 0 0 with
  | none => none
  | some (v, width, last, pos') =>
    let signed : Int := if last % 128 ≥ 64 then (v : Int) - (2 : Int) ^ width else v
    some (truncate_signed (umask_int signed 64) 64, pos')

/-- Signed fixed-width read widened to a signed 64-bit value
(binary_buffer.h `next_s16/s32/...`, modelled from the spec). -/
def read_sint (data : List Nat) (endPos pos n : Nat) (little : Bool) :
    Option (Int × Nat) :=
  match read_uint data endPos pos n little with
  | none => none
  | some (v, pos') => some (truncate_signed v (8 * n), pos')

theorem bytes_value_le_cons (b : Nat) (bs : List Nat) :
    bytes_value true (b :: bs) = b + 256 * bytes_value true bs := by
  simp [bytes_value]

theorem bytes_value_nat_to_bytes_le (n v : Nat) (h : v < 2 ^ (8 * n)) :
    bytes_value true (nat_to_bytes_le n v) = v := by
  induction n generalizing v with
  | zero =>
    simp [Nat.mul_zero, pow_zero] at h
    simp [nat_to_bytes_le, bytes_value, h]
  | succ n ih =>
    have hlt : v / 256 < 2 ^ (8 * n) := by
      apply Nat.div_lt_of_lt_mul
      calc v < 2 ^ (8 * (n + 1)) := h
        _ = 2 ^ (8 * n) * 256 := by ring
        _ = 256 * 2 ^ (8 * n) := by ring
    calc bytes_value true (nat_to_bytes_le (n + 1) v)
        = v % 256 + 256 * bytes_value true (nat_to_bytes_le n (v / 256)) := by
          simp [nat_to_bytes_le, bytes_value_le_cons]
      _ = v % 256 + 256 * (v / 256) := by rw [ih _ hlt]
      _ = v := by omega

theorem nat_to_bytes_le_length (n v : Nat) : (nat_to_bytes_le n v).length = n := by
  induction n generalizing v with
  | zero => simp [nat_to_bytes_le]
  | succ n ih => simp [nat_to_bytes_le, ih]

theorem read_uint_of_prefix (pre rest : List Nat) (endPos n : Nat) (little : Bool)
    (hn : pre.length = n) (hend : pre.length + rest.length ≤ endPos) :
    read_uint (pre ++ rest) endPos 0 n little =
      some (bytes_value little pre, n) := by
  subst hn
  have h1 : (0 : Nat) + pre.length ≤ endPos := by omega
  simp only [read_uint, if_pos h1, List.drop_zero, List.take_left]
  simp

/-!
## DWARF expression evaluator (`drgn_eval_dwarf_expression`)

The evaluation context packages the pieces of `drgn_dwarf_expression_context`
plus the external collaborators (memory reader, register state, `.debug_addr`
table, frame-base attribute) that the C code reaches through `prog`/`module`.
-/

/-- Evaluation context for a DWARF expression
(`drgn_dwarf_expression_context` plus its external collaborators).
`regmap` is the platform's `dwarf_regno_to_internal` (`none` is the
`DRGN_REGISTER_NUMBER_UNKNOWN` sentinel), `registers` the register state's
bytes per internal register, `memory` the program memory reader,
`addr_table` the `.debug_addr` lookup behind `drgn_dwarf_next_addrx`, and
`frame_base_expr` the expression that `DW_AT_frame_base` of the enclosing
function resolves to (`none`: no function DIE or no attribute). -/
structure ExprCtx where
  little_endian : Bool
  address_size : Nat
  has_regs : Bool
  regmap : Nat → Option Nat
  registers : Nat → Option (List Nat)
  cfa : Option Nat
  memory : Nat → Nat → Option (List Nat)
  has_cu : Bool
  addr_table : Nat → Option Nat
  frame_base_expr : Option (List Nat)

/-- Dispatch class of a DWARF expression opcode, mirroring the `switch` in
`drgn_eval_dwarf_expression`.  `locdesc` collects the location-description
opcodes the evaluator stops at; `unknown` is the `default` case. -/
inductive DwarfOpClass where
  | lit (n : Nat)
  | addr
  | constN (width : Nat) (signed : Bool)
  | constu
  | consts
  | addrx_constx
  | fbreg
  | breg (r : Nat)
  | bregx
  | dup
  | drop
  | pick
  | over
  | swap
  | rot
  | deref (sized : Bool)
  | call_frame_cfa
  | abs
  | and
  | div
  | minus
  | mod
  | mul
  | neg
  | not
  | or
  | plus
  | plus_uconst
  | shl
  | shr
  | shra
  | xor
  | le
  | ge
  | eq
  | lt
  | gt
  | ne
  | skip
  | bra
  | nop
  | locdesc
  | unknown
deriving DecidableEq

/-- Opcode classification for `drgn_eval_dwarf_expression`'s `switch`
statement (opcode values from `dwarf.h`). -/
def classify_dwarf_op (op : Nat) : DwarfOpClass :=
  if 0x30 ≤ op ∧ op ≤ 0x4f then .lit (op - 0x30)
  else if op = 0x03 then .addr
  else if op = 0x08 then .constN 1 false
  else if op = 0x09 then .constN 1 true
  else if op = 0x0a then .constN 2 false
  else if op = 0x0b then .constN 2 true
  else if op = 0x0c then .constN 4 false
  else if op = 0x0d then .constN 4 true
  else if op = 0x0e then .constN 8 false
  else if op = 0x0f then .constN 8 true
  else if op = 0x10 then .constu
  else if op = 0x11 then .consts
  else if op = 0xa1 ∨ op = 0xa2 then .addrx_constx
  else if op = 0x91 then .fbreg
  else if 0x70 ≤ op ∧ op ≤ 0x8f then .breg (op - 0x70)
  else if op = 0x92 then .bregx
  else if op = 0x12 then .dup
  else if op = 0x13 then .drop
  else if op = 0x15 then .pick
  else if op = 0x14 then .over
  else if op = 0x16 then .swap
  else if op = 0x17 then .rot
  else if op = 0x06 then .deref false
  else if op = 0x94 then .deref true
  else if op = 0x9c then .call_frame_cfa
  else if op = 0x19 then .abs
  else if op = 0x1a then .and
  else if op = 0x1b then .div
  else if op = 0x1c then .minus
  else if op = 0x1d then .mod
  else if op = 0x1e then .mul
  else if op = 0x1f then .neg
  else if op = 0x20 then .not
  else if op = 0x21 then .or
  else if op = 0x22 then .plus
  else if op = 0x23 then .plus_uconst
  else if op = 0x24 then .shl
  else if op = 0x25 then .shr
  else if op = 0x26 then .shra
  else if op = 0x27 then .xor
  else if op = 0x2c then .le
  else if op = 0x2a then .ge
  else if op = 0x29 then .eq
  else if op = 0x2d then .lt
  else if op = 0x2b then .gt
  else if op = 0x2e then .ne
  else if op = 0x2f then .skip
  else if op = 0x28 then .bra
  else if op = 0x96 then .nop
  else if (0x50 ≤ op ∧ op ≤ 0x6f) ∨ op = 0x90 ∨ op = 0x9e ∨ op = 0x9f ∨
          op = 0x93 ∨ op = 0x9d then .locdesc
  else .unknown

/-- Result of executing one (non-`fbreg`) DWARF expression opcode:
an error, a stop with the buffer position rewound to the opcode
(location-description opcodes, `addrx`/`constx` without a CU), or the
next stack and position. -/
inductive ExprStepRes where
  | err (e : DrgnErr)
  | stop (stack : List Nat) (pos : Nat)
  | next (stack : List Nat) (pos : Nat)
deriving DecidableEq

/-- Shared tail of `DW_OP_breg0..31`/`DW_OP_bregx` (the `breg:` label):
map the DWARF register, read its bytes, add the SLEB128 offset, and push
masked. -/
def drgn_dwarf_breg (ctx : ExprCtx) (expr : List Nat) (r pos : Nat)
    (stack : List Nat) : ExprStepRes :=
  if ¬ctx.has_regs then .err .not_found
  else
    match (ctx.regmap r).bind ctx.registers with
    | none => .err .not_found
    | some bytes =>
      match read_sleb expr expr.length pos with
      | none => .err .out_of_bounds
      | some (sv, p') =>
        .next (umask_int ((bytes_value ctx.little_endian bytes : Int) + sv)
          (8 * ctx.address_size) :: stack) p'

/-- Shared branch tail of `DW_OP_skip`/`DW_OP_bra` (the `branch:` label):
bounds-check the 16-bit displacement against the expression and move the
position. -/
def drgn_dwarf_branch (expr : List Nat) (sv : Int) (pos : Nat)
    (stack : List Nat) : ExprStepRes :=
  if (0 ≤ sv ∧ (expr.length : Int) - pos < sv) ∨ (sv < 0 ∧ (pos : Int) < -sv) then
    .err .branch_out_of_bounds
  else .next stack ((pos : Int) + sv).toNat

/-- Execute one DWARF expression opcode of class `c` (everything in
`drgn_eval_dwarf_expression`'s `switch` except `DW_OP_fbreg`, which needs
the recursive frame-base evaluation).  `op` is the opcode byte, `opPos` its
position, `pos` the position after it.  The `.fbreg` case is unreachable
(handled by the caller) and returns the fuel artifact error. -/
def drgn_eval_dwarf_step (ctx : ExprCtx) (expr : List Nat) (c : DwarfOpClass)
    (op opPos pos : Nat) (stack : List Nat) : ExprStepRes :=
  let bits := 8 * ctx.address_size
  match c with
  | .lit n => .next (n :: stack) pos
  | .addr =>
    match read_uint expr expr.length pos ctx.address_size ctx.little_endian with
    | none => .err .out_of_bounds
    | some (v, p') => .next (v :: stack) p'
  | .constN w signed =>
    match read_uint expr expr.length pos w ctx.little_endian with
    | none => .err .out_of_bounds
    | some (v, p') =>
      if signed then .next (umask_int (truncate_signed v (8 * w)) bits :: stack) p'
      else if w = 1 then .next (v :: stack) p'
      else .next (v % 2 ^ bits :: stack) p'
  | .constu =>
    match read_uleb expr expr.length pos with
    | none => .err .out_of_bounds
    | some (v, p') => .next (v % 2 ^ bits :: stack) p'
  | .consts =>
    match read_sleb expr expr.length pos with
    | none => .err .out_of_bounds
    | some (sv, p') => .next (umask_int sv bits :: stack) p'
  | .addrx_constx =>
    if ¬ctx.has_cu then .stop stack opPos
    else
      match read_uleb expr expr.length pos with
      | none => .err .out_of_bounds
      | some (idx, p') =>
        match ctx.addr_table idx with
        | none => .err .addr_table_error
        | some v => .next (v :: stack) p'
  | .fbreg => .err .out_of_fuel
  | .breg r => drgn_dwarf_breg ctx expr r pos stack
  | .bregx =>
    match read_uleb expr expr.length pos with
    | none => .err .out_of_bounds
    | some (r, p') => drgn_dwarf_breg ctx expr r p' stack
  | .dup =>
    match stack with
    | [] => .err .stack_underflow
    | x :: _ => .next (x :: stack) pos
  | .drop =>
    match stack with
    | [] => .err .stack_underflow
    | _ :: r => .next r pos
  | .pick =>
    match read_u8 expr expr.length pos with
    | none => .err .out_of_bounds
    | some (idx, p') =>
      if stack.length < idx + 1 then .err .stack_underflow
      else .next (stack.getD idx 0 :: stack) p'
  | .over =>
    match stack with
    | _ :: b :: _ => .next (b :: stack) pos
    | _ => .err .stack_underflow
  | .swap =>
    match stack with
    | a :: b :: r => .next (b :: a :: r) pos
    | _ => .err .stack_underflow
  | .rot =>
    match stack with
    | a :: b :: c' :: r => .next (b :: c' :: a :: r) pos
    | _ => .err .stack_underflow
  | .deref sized =>
    let szpos : Except DrgnErr (Nat × Nat) :=
      if sized then
        match read_u8 expr expr.length pos with
        | none => .error .out_of_bounds
        | some (sz, p') =>
          if sz > ctx.address_size then .error .invalid_deref_size
          else .ok (sz, p')
      else .ok (ctx.address_size, pos)
    match szpos with
    | .error e => .err e
    | .ok (sz, p') =>
      match stack with
      | [] => .err .stack_underflow
      | a :: r =>
        match ctx.memory a sz with
        | none => .err .memory_error
        | some bytes =>
          .next (bytes_value ctx.little_endian (bytes.take sz) :: r) p'
  | .call_frame_cfa =>
    if ¬ctx.has_regs then .err .not_found
    else
      match ctx.cfa with
      | none => .err .not_found
      | some v => .next (v :: stack) pos
  | .abs =>
    match stack with
    | [] => .err .stack_underflow
    | a :: r =>
      if a.testBit (bits - 1) then .next (umask_int (-(a : Int)) bits :: r) pos
      else .next (a :: r) pos
  | .and =>
    match stack with
    | a :: b :: r => .next ((b &&& a) :: r) pos
    | _ => .err .stack_underflow
  | .div =>
    match stack with
    | a :: b :: r =>
      if a = 0 then .err .division_by_zero
      else .next (umask_int (Int.tdiv (truncate_signed b bits)
        (truncate_signed a bits)) bits :: r) pos
    | _ => .err .stack_underflow
  | .minus =>
    match stack with
    | a :: b :: r => .next (umask_int ((b : Int) - (a : Int)) bits :: r) pos
    | _ => .err .stack_underflow
  | .mod =>
    match stack with
    | a :: b :: r =>
      if a = 0 then .err .modulo_by_zero
      else .next ((b % a) :: r) pos
    | _ => .err .stack_underflow
  | .mul =>
    match stack with
    | a :: b :: r => .next (umask_int ((b : Int) * (a : Int)) bits :: r) pos
    | _ => .err .stack_underflow
  | .neg =>
    match stack with
    | [] => .err .stack_underflow
    | a :: r => .next (umask_int (-(a : Int)) bits :: r) pos
  | .not =>
    match stack with
    | [] => .err .stack_underflow
    | a :: r => .next (umask_int (-(a : Int) - 1) bits :: r) pos
  | .or =>
    match stack with
    | a :: b :: r => .next ((b ||| a) :: r) pos
    | _ => .err .stack_underflow
  | .plus =>
    match stack with
    | a :: b :: r => .next (umask_int ((b : Int) + (a : Int)) bits :: r) pos
    | _ => .err .stack_underflow
  | .plus_uconst =>
    match stack with
    | [] => .err .stack_underflow
    | a :: r =>
      match read_uleb expr expr.length pos with
      | none => .err .out_of_bounds
      | some (u, p') => .next (umask_int ((a : Int) + (u : Int)) bits :: r) p'
  | .shl =>
    match stack with
    | a :: b :: r =>
      if a < bits then .next ((b <<< a) % 2 ^ bits :: r) pos
      else .next (0 :: r) pos
    | _ => .err .stack_underflow
  | .shr =>
    match stack with
    | a :: b :: r =>
      if a < bits then .next ((b >>> a) :: r) pos
      else .next (0 :: r) pos
    | _ => .err .stack_underflow
  | .shra =>
    match stack with
    | a :: b :: r =>
      if a < bits then
        .next (umask_int (truncate_signed b bits / (2 : Int) ^ a) bits :: r) pos
      else if b.testBit (bits - 1) then
        .next (umask_int (-1) bits :: r) pos
      else .next (0 :: r) pos
    | _ => .err .stack_underflow
  | .xor =>
    match stack with
    | a :: b :: r => .next ((b ^^^ a) :: r) pos
    | _ => .err .stack_underflow
  | .le =>
    match stack with
    | a :: b :: r =>
      .next ((if truncate_signed b bits ≤ truncate_signed a bits then 1 else 0) :: r) pos
    | _ => .err .stack_underflow
  | .ge =>
    match stack with
    | a :: b :: r =>
      .next ((if truncate_signed a bits ≤ truncate_signed b bits then 1 else 0) :: r) pos
    | _ => .err .stack_underflow
  | .eq =>
    match stack with
    | a :: b :: r =>
      .next ((if truncate_signed b bits = truncate_signed a bits then 1 else 0) :: r) pos
    | _ => .err .stack_underflow
  | .lt =>
    match stack with
    | a :: b :: r =>
      .next ((if truncate_signed b bits < truncate_signed a bits then 1 else 0) :: r) pos
    | _ => .err .stack_underflow
  | .gt =>
    match stack with
    | a :: b :: r =>
      .next ((if truncate_signed a bits < truncate_signed b bits then 1 else 0) :: r) pos
    | _ => .err .stack_underflow
  | .ne =>
    match stack with
    | a :: b :: r =>
      .next ((if truncate_signed b bits = truncate_signed a bits then 0 else 1) :: r) pos
    | _ => .err .stack_underflow
  | .skip =>
    match read_sint expr expr.length pos 2 ctx.little_endian with
    | none => .err .out_of_bounds
    | some (sv, p') => drgn_dwarf_branch expr sv p' stack
  | .bra =>
    match stack with
    | [] => .err .stack_underflow
    | a :: r =>
      if a ≠ 0 then
        match read_sint expr expr.length pos 2 ctx.little_endian with
        | none => .err .out_of_bounds
        | some (sv, p') => drgn_dwarf_branch expr sv p' r
      else
        if pos + 2 > expr.length then .err .out_of_bounds
        else .next r (pos + 2)
  | .nop => .next stack pos
  | .locdesc => .stop stack opPos
  | .unknown => .err (.unknown_opcode op)

/-- Trailing register form of a `DW_AT_frame_base` expression (the `reg:`
label in `drgn_dwarf_frame_base`): map the DWARF register number, read the
register bytes, and reject stray trailing operations. -/
def drgn_frame_base_reg (ctx : ExprCtx) (fb : List Nat) (r pos ro : Nat) :
    Except DrgnErr (Nat × Nat) :=
  if ¬ctx.has_regs then .error .not_found
  else
    match (ctx.regmap r).bind ctx.registers with
    | none => .error .not_found
    | some bytes =>
      if pos < fb.length then .error .stray_fb_ops
      else .ok (bytes_value ctx.little_endian bytes, ro)

mutual

/-- `drgn_eval_dwarf_expression`: run the expression from `pos` until the
stream is exhausted, a location-description opcode is reached (stop with the
position rewound to it), or an error occurs.  `ro` is `*remaining_ops`,
checked and decremented once per iteration and shared with the nested
frame-base evaluation; the result carries the final stack, position, and
remaining budget.  `fuel` only bounds the syntactic recursion depth of this
model. -/
def drgn_eval_dwarf_expression (ctx : ExprCtx) (expr : List Nat) :
    Nat → List Nat → Nat → Nat → Except DrgnErr (List Nat × Nat × Nat)
  | 0, stack, pos, ro =>
    if pos < expr.length then .error .out_of_fuel else .ok (stack, pos, ro)
  | fuel + 1, stack, pos, ro =>
    if pos < expr.length then
      if ro = 0 then .error .too_many_ops
      else
        if classify_dwarf_op (expr.getD pos 0) = .fbreg then
          match drgn_dwarf_frame_base ctx fuel (ro - 1) with
          | .error e => .error e
          | .ok (fb, ro') =>
            match read_sleb expr expr.length (pos + 1) with
            | none => .error .out_of_bounds
            | some (sv, p') =>
              drgn_eval_dwarf_expression ctx expr fuel
                (umask_int ((fb : Int) + sv) (8 * ctx.address_size) :: stack) p' ro'
        else
          match drgn_eval_dwarf_step ctx expr (classify_dwarf_op (expr.getD pos 0))
              (expr.getD pos 0) pos (pos + 1) stack with
          | .err e => .error e
          | .stop stack' pos' => .ok (stack', pos', ro - 1)
          | .next stack' pos' =>
            drgn_eval_dwarf_expression ctx expr fuel stack' pos' (ro - 1)
    else .ok (stack, pos, ro)

/-- `drgn_dwarf_frame_base`: evaluate the function's `DW_AT_frame_base`
expression (resolved into `ctx.frame_base_expr`; `none` models a missing
function DIE or attribute).  A single trailing `DW_OP_reg0..31`/`DW_OP_regx`
yields the register value directly (stray trailing operations are an error);
otherwise the result is the top of the stack.  Shares the caller's
`remaining_ops` budget `ro`. -/
def drgn_dwarf_frame_base (ctx : ExprCtx) :
    Nat → Nat → Except DrgnErr (Nat × Nat)
  | 0, _ =>
    match ctx.frame_base_expr with
    | none => .error .not_found
    | some _ => .error .out_of_fuel
  | fuel + 1, ro =>
    match ctx.frame_base_expr with
    | none => .error .not_found
    | some fb =>
      match drgn_eval_dwarf_expression { ctx with frame_base_expr := none }
          fb fuel [] 0 ro with
      | .error e => .error e
      | .ok (stack, pos, ro') =>
        if pos < fb.length then
          if 0x50 ≤ fb.getD pos 0 ∧ fb.getD pos 0 ≤ 0x6f then
            drgn_frame_base_reg ctx fb (fb.getD pos 0 - 0x50) (pos + 1) ro'
          else if fb.getD pos 0 = 0x90 then
            match read_uleb fb fb.length (pos + 1) with
            | none => .error .out_of_bounds
            | some (r, p') => drgn_frame_base_reg ctx fb r p' ro'
          else .error (.invalid_fb_opcode (fb.getD pos 0))
        else
          match stack with
          | v :: _ => .ok (v, ro')
          | [] => .error .not_found

end

/-- `MAX_DWARF_EXPR_OPS`: per-evaluation budget for DWARF expression
operations. -/
def MAX_DWARF_EXPR_OPS : Nat := 10000

/-- Top-level expression evaluation as performed by the callers of
`drgn_eval_dwarf_expression`: empty stack, `remaining_ops`
initialized to `MAX_DWARF_EXPR_OPS` (fuel is an ample model bound). -/
def drgn_eval_dwarf_expression_top (ctx : ExprCtx) (expr : List Nat) :
    Except DrgnErr (List Nat × Nat × Nat) :=
  drgn_eval_dwarf_expression ctx expr (2 * MAX_DWARF_EXPR_OPS + 4) [] 0
    MAX_DWARF_EXPR_OPS

/-- A 32-bit little-endian evaluation context with no external state
(no registers, memory, CU, or frame base), used for concrete runs. -/
def sample_ctx32 : ExprCtx := {
  little_endian := true
  address_size := 4
  has_regs := false
  regmap := fun _ => none
  registers := fun _ => none
  cfa := none
  memory := fun _ _ => none
  has_cu := false
  addr_table := fun _ => none
  frame_base_expr := none }

theorem drgn_frame_base_reg_ro (ctx : ExprCtx) (fb : List Nat) (r pos ro v r' : Nat)
    (h : drgn_frame_base_reg ctx fb r pos ro = .ok (v, r')) : r' = ro := by
  unfold drgn_frame_base_reg at h
  split at h <;> try simp at h
  split at h <;> try simp at h
  split at h <;> simp at h
  omega

/-- The remaining-operations budget never increases across an evaluation,
including through the nested frame-base evaluation: the number of executed
operations is `ro - r`. -/
theorem eval_fb_ro_le : ∀ fuel : Nat,
    (∀ (ctx : ExprCtx) (expr stack : List Nat) (pos ro : Nat)
        (s : List Nat) (p r : Nat),
      drgn_eval_dwarf_expression ctx expr fuel stack pos ro = .ok (s, p, r) → r ≤ ro) ∧
    (∀ (ctx : ExprCtx) (ro v r : Nat),
      drgn_dwarf_frame_base ctx fuel ro = .ok (v, r) → r ≤ ro) := by
  intro fuel
  induction fuel with
  | zero =>
    constructor
    · intro ctx expr stack pos ro s p r h
      rw [drgn_eval_dwarf_expression] at h
      split at h
      · simp at h
      · simp at h; omega
    · intro ctx ro v r h
      rw [drgn_dwarf_frame_base] at h
      split at h <;> simp at h
  | succ fuel ih =>
    constructor
    · intro ctx expr stack pos ro s p r h
      rw [drgn_eval_dwarf_expression] at h
      split at h
      case isTrue hpos =>
        split at h
        · simp at h
        case isFalse hro =>
          split at h
          case isTrue hc =>
            split at h
            · simp at h
            case h_2 fb ro' hfb =>
              split at h
              · simp at h
              case h_2 sv p' hsleb =>
                have h1 := ih.2 _ _ _ _ hfb
                have h2 := ih.1 _ _ _ _ _ _ _ _ h
                omega
          case isFalse hc =>
            split at h
            · simp at h
            · simp only [Except.ok.injEq, Prod.mk.injEq] at h
              omega
            · have h2 := ih.1 _ _ _ _ _ _ _ _ h
              omega
      case isFalse =>
        simp at h; omega
    · intro ctx ro v r h
      rw [drgn_dwarf_frame_base] at h
      split at h
      · simp at h
      case h_2 fb hfb =>
        split at h
        · simp at h
        case h_2 stack pos ro' heval =>
          have h1 := ih.1 _ _ _ _ _ _ _ _ heval
          split at h
          case isTrue =>
            split at h
            · have := drgn_frame_base_reg_ro _ _ _ _ _ _ _ h
              omega
            · split at h
              · split at h
                · simp at h
                · have := drgn_frame_base_reg_ro _ _ _ _ _ _ _ h
                  omega
              · simp at h
          case isFalse =>
            split at h
            · simp only [Except.ok.injEq, Prod.mk.injEq] at h
              omega
            · simp at h

/-- One iteration of the evaluator on the self-jumping expression
`DW_OP_skip -3` returns to position 0 having consumed one operation. -/
theorem skip_loop_one_step (n ro : Nat) (stack : List Nat) :
    drgn_eval_dwarf_expression sample_ctx32 [0x2f, 0xfd, 0xff] (n + 1) stack 0 (ro + 1) =
      drgn_eval_dwarf_expression sample_ctx32 [0x2f, 0xfd, 0xff] n stack 0 ro := by
  simp [drgn_eval_dwarf_expression, classify_dwarf_op, drgn_eval_dwarf_step,
    read_sint, read_uint, bytes_value, truncate_signed, drgn_dwarf_branch, sample_ctx32]

/-- The self-jumping expression exhausts any operation budget and fails with
the operation-count error. -/
theorem skip_loop_exhausts (ro : Nat) : ∀ (fuel : Nat) (stack : List Nat),
    drgn_eval_dwarf_expression sample_ctx32 [0x2f, 0xfd, 0xff]
        (ro + fuel + 1) stack 0 ro = .error .too_many_ops := by
  induction ro with
  | zero => intro fuel stack; simp [drgn_eval_dwarf_expression]
  | succ ro ih =>
    intro fuel stack
    have h : ro + 1 + fuel + 1 = (ro + fuel + 1) + 1 := by omega
    rw [h, skip_loop_one_step, ih]

/-- Claim C7: a shift operation (`DW_OP_shl`, `DW_OP_shr`) whose shift count
is at least the address size in bits produces 0 rather than raising an
error; in particular pushing 1 and 63 (the `lit1 lit63` pseudo-literals,
realized as `DW_OP_lit1; DW_OP_const1u 63` since DWARF literal opcodes stop
at `lit31`) and shifting left under a 32-bit address size succeeds with 0
on top of the stack. -/
theorem claim_C7_theorem :
    (∀ (ctx : ExprCtx) (expr : List Nat) (op opPos pos a b : Nat) (rest : List Nat),
      drgn_eval_dwarf_step ctx expr .shl op opPos pos (a :: b :: rest) =
        if a < 8 * ctx.address_size then
          .next ((b <<< a) % 2 ^ (8 * ctx.address_size) :: rest) pos
        else .next (0 :: rest) pos) ∧
    (∀ (ctx : ExprCtx) (expr : List Nat) (op opPos pos a b : Nat) (rest : List Nat),
      drgn_eval_dwarf_step ctx expr .shr op opPos pos (a :: b :: rest) =
        if a < 8 * ctx.address_size then .next ((b >>> a) :: rest) pos
        else .next (0 :: rest) pos) ∧
    drgn_eval_dwarf_expression_top sample_ctx32 [0x31, 0x08, 0x3f, 0x24] =
      .ok ([0], 4, 9997) :=
  ⟨fun _ _ _ _ _ _ _ _ => rfl, fun _ _ _ _ _ _ _ _ => rfl, by rfl⟩

/-- Claim C6 (counterexample): `DW_OP_mod` is computed on the unsigned
64-bit values, not on sign-truncated operands: evaluating
`const4u 0xffffffff; lit2; mod` under a 32-bit address size leaves 1 on the
stack, whereas signed modulo of the truncated operands masked to the address
size would give `0xffffffff`. -/
theorem claim_C6_counterexample :
    drgn_eval_dwarf_expression_top sample_ctx32
        [0x0c, 0xff, 0xff, 0xff, 0xff, 0x32, 0x1d] = .ok ([1], 7, 9997) ∧
      (1 : Nat) ≠
        umask_int (Int.tmod (truncate_signed 0xffffffff 32) (truncate_signed 2 32)) 32 :=
  ⟨by rfl, by decide⟩

/-- Claim C6 (amended): `DW_OP_div` and `DW_OP_mod` both raise a structured
error when the divisor (top of stack) is zero; division treats its operands
as signed values truncated to the context's address size with the result
masked back to the address size, while modulo is computed directly on the
unsigned 64-bit values. -/
theorem claim_C6_theorem :
    (∀ (ctx : ExprCtx) (expr : List Nat) (op opPos pos a b : Nat) (rest : List Nat),
      drgn_eval_dwarf_step ctx expr .div op opPos pos (a :: b :: rest) =
        if a = 0 then .err .division_by_zero
        else .next (umask_int (Int.tdiv (truncate_signed b (8 * ctx.address_size))
          (truncate_signed a (8 * ctx.address_size))) (8 * ctx.address_size) :: rest) pos) ∧
    (∀ (ctx : ExprCtx) (expr : List Nat) (op opPos pos a b : Nat) (rest : List Nat),
      drgn_eval_dwarf_step ctx expr .mod op opPos pos (a :: b :: rest) =
        if a = 0 then .err .modulo_by_zero
        else .next ((b % a) :: rest) pos) ∧
    drgn_eval_dwarf_expression_top sample_ctx32 [0x31, 0x30, 0x1b] =
      .error .division_by_zero ∧
    drgn_eval_dwarf_expression_top sample_ctx32 [0x31, 0x30, 0x1d] =
      .error .modulo_by_zero :=
  ⟨fun _ _ _ _ _ _ _ _ => rfl, fun _ _ _ _ _ _ _ _ => rfl, by rfl, by rfl⟩

/-!
## CFI engine (`drgn_eval_dwarf_cfi` and FDE parsing/lookup support)
-/

/-- CFI rule for a register or the CFA (drgn_cfi_rule, modelled from the
spec's rule variants; cfi.h is outside this source file). -/
inductive drgn_cfi_rule where
  | undefined
  | register_plus_offset (regno : Nat) (offset : Int)
  | at_cfa_plus_offset (offset : Int)
  | cfa_plus_offset (offset : Int)
  | dwarf_expression (push_cfa : Bool) (expr : List Nat)
  | at_dwarf_expression (push_cfa : Bool) (expr : List Nat)
deriving DecidableEq

/-- CFI row: a CFA rule plus a register-to-rule mapping (drgn_cfi_row,
modelled from the spec; unset registers read as `undefined`). -/
structure drgn_cfi_row where
  cfa : drgn_cfi_rule
  regs : List (Nat × drgn_cfi_rule)
deriving DecidableEq

/-- `drgn_cfi_row_get_register`, modelled from the spec's row mapping. -/
def drgn_cfi_row_get_register (row : drgn_cfi_row) (regno : Nat) : drgn_cfi_rule :=
  match row.regs.find? (fun p => p.1 == regno) with
  | some p => p.2
  | none => .undefined

/-- `drgn_cfi_row_set_register`, modelled from the spec's row mapping. -/
def drgn_cfi_row_set_register (row : drgn_cfi_row) (regno : Nat)
    (rule : drgn_cfi_rule) : drgn_cfi_row :=
  { row with regs := (regno, rule) :: row.regs.filter (fun p => p.1 != regno) }

/-- `drgn_cfi_row_set_cfa`, modelled from the spec's row. -/
def drgn_cfi_row_set_cfa (row : drgn_cfi_row) (rule : drgn_cfi_rule) :
    drgn_cfi_row :=
  { row with cfa := rule }

/-- Parsed CIE fields used by FDE decoding and CFI execution
(`struct drgn_dwarf_cie`). -/
structure drgn_dwarf_cie where
  is_eh : Bool
  address_size : Nat
  address_encoding : Nat
  have_augmentation_length : Bool
  signal_frame : Bool
  return_address_register : Nat
  code_alignment_factor : Nat
  data_alignment_factor : Int
deriving DecidableEq

/-- Parsed FDE fields used for sorting, deduplication, and lookup
(`struct drgn_dwarf_fde`; the instruction stream is carried separately). -/
structure drgn_dwarf_fde where
  initial_location : Nat
  address_range : Nat
  cie : Nat
deriving DecidableEq

/-- `drgn_dwarf_cfi_next_encoded`: decode one EH-frame encoded pointer at
`pos` (an absolute offset into the owning section's `data`): the base is
selected by bits `0x70` of the encoding (with `aligned` skipping to the next
multiple of the address size), the offset by the low nibble, and the sum is
masked to the address size.  The `indirect` bit and unknown base/offset
selectors are errors. -/
def drgn_dwarf_cfi_next_encoded (data : List Nat) (endPos : Nat) (little : Bool)
    (pcrel_base textrel_base datarel_base : Nat)
    (address_size encoding func_addr pos : Nat) : Except DrgnErr (Nat × Nat) :=
  if encoding &&& 0x80 ≠ 0 then .error (.unknown_encoding encoding)
  else
    let base_pos : Except DrgnErr (Nat × Nat) :=
      match encoding &&& 0x70 with
      | 0x00 => .ok (0, pos)
      | 0x10 => .ok (pcrel_base + pos, pos)
      | 0x20 => .ok (textrel_base, pos)
      | 0x30 => .ok (datarel_base, pos)
      | 0x40 => .ok (func_addr, pos)
      | 0x50 =>
        if pos % address_size ≠ 0 then
          if pos + (address_size - pos % address_size) > endPos then
            .error .out_of_bounds
          else .ok (0, pos + (address_size - pos % address_size))
        else .ok (0, pos)
      | _ => .error (.unknown_encoding encoding)
    match base_pos with
    | .error e => .error e
    | .ok (base, pos') =>
      let off_pos : Except DrgnErr (Nat × Nat) :=
        match encoding &&& 0xf with
        | 0x0 =>
          match read_uint data endPos pos' address_size little with
          | none => .error .out_of_bounds
          | some (v, p') => .ok (v, p')
        | 0x1 =>
          match read_uleb data endPos pos' with
          | none => .error .out_of_bounds
          | some (v, p') => .ok (v, p')
        | 0x2 =>
          match read_uint data endPos pos' 2 little with
          | none => .error .out_of_bounds
          | some (v, p') => .ok (v, p')
        | 0x3 =>
          match read_uint data endPos pos' 4 little with
          | none => .error .out_of_bounds
          | some (v, p') => .ok (v, p')
        | 0x4 =>
          match read_uint data endPos pos' 8 little with
          | none => .error .out_of_bounds
          | some (v, p') => .ok (v, p')
        | 0x9 =>
          match read_sleb data endPos pos' with
          | none => .error .out_of_bounds
          | some (sv, p') => .ok (umask_int sv 64, p')
        | 0xa =>
          match read_sint data endPos pos' 2 little with
          | none => .error .out_of_bounds
          | some (sv, p') => .ok (umask_int sv 64, p')
        | 0xb =>
          match read_sint data endPos pos' 4 little with
          | none => .error .out_of_bounds
          | some (sv, p') => .ok (umask_int sv 64, p')
        | 0xc =>
          match read_sint data endPos pos' 8 little with
          | none => .error .out_of_bounds
          | some (sv, p') => .ok (umask_int sv 64, p')
        | _ => .error (.unknown_encoding encoding)
      match off_pos with
      | .error e => .error e
      | .ok (offset, p') => .ok ((base + offset) % 2 ^ (8 * address_size), p')

/-- `drgn_dwarf_cfi_next_offset`: unfactored unsigned offset operand; values
above `INT64_MAX` are rejected. -/
def drgn_dwarf_cfi_next_offset (data : List Nat) (endPos pos : Nat) :
    Except DrgnErr (Int × Nat) :=
  match read_uleb data endPos pos with
  | none => .error .out_of_bounds
  | some (o, p') =>
    if o > 2 ^ 63 - 1 then .error .offset_too_large else .ok ((o : Int), p')

/-- `drgn_dwarf_cfi_next_offset_sf`: signed factored offset, multiplied by
the CIE's `data_alignment_factor` with signed-64-bit overflow checking. -/
def drgn_dwarf_cfi_next_offset_sf (daf : Int) (data : List Nat) (endPos pos : Nat) :
    Except DrgnErr (Int × Nat) :=
  match read_sleb data endPos pos with
  | none => .error .out_of_bounds
  | some (f, p') =>
    if f * daf < -((2 : Int) ^ 63) ∨ (2 : Int) ^ 63 ≤ f * daf then
      .error .offset_too_large
    else .ok (f * daf, p')

/-- `drgn_dwarf_cfi_next_offset_f`: unsigned factored offset, multiplied by
the CIE's `data_alignment_factor` with signed-64-bit overflow checking. -/
def drgn_dwarf_cfi_next_offset_f (daf : Int) (data : List Nat) (endPos pos : Nat) :
    Except DrgnErr (Int × Nat) :=
  match read_uleb data endPos pos with
  | none => .error .out_of_bounds
  | some (f, p') =>
    if (f : Int) * daf < -((2 : Int) ^ 63) ∨ (2 : Int) ^ 63 ≤ (f : Int) * daf then
      .error .offset_too_large
    else .ok ((f : Int) * daf, p')

/-- `drgn_dwarf_cfi_next_block`: ULEB128 length followed by that many
expression bytes, bounds-checked. -/
def drgn_dwarf_cfi_next_block (data : List Nat) (endPos pos : Nat) :
    Except DrgnErr (List Nat × Nat) :=
  match read_uleb data endPos pos with
  | none => .error .out_of_bounds
  | some (size, p') =>
    if size > endPos - p' then .error .out_of_bounds
    else .ok ((data.drop p').take size, p' + size)

/-- Shared tail of the `DW_CFA_advance_loc*` cases (the `advance_loc:`
label): multiply the raw delta by the CIE's `code_alignment_factor`, add it
to the current location with unsigned-64-bit and address-size overflow
checks, and report whether the new location passed the target. -/
def drgn_cfa_advance_loc (tmp caf pc target address_size : Nat) :
    Except DrgnErr (Nat × Bool) :=
  if tmp * caf ≥ 2 ^ 64 ∨ pc + tmp * caf ≥ 2 ^ 64 ∨
      pc + tmp * caf > uint_max address_size then
    .error .advance_overflow
  else .ok (pc + tmp * caf, decide (pc + tmp * caf > target))

/-- Dispatch class of a CFI opcode, mirroring
`switch ((opcode & 0xc0) ? (opcode & 0xc0) : opcode)` in
`drgn_eval_dwarf_cfi`. -/
inductive CfaOpClass where
  | advance_loc (delta : Nat)
  | offset_small (reg : Nat)
  | restore_small (reg : Nat)
  | set_loc
  | advance_loc1
  | advance_loc2
  | advance_loc4
  | def_cfa
  | def_cfa_sf
  | def_cfa_register
  | def_cfa_offset
  | def_cfa_offset_sf
  | def_cfa_expression
  | undefined
  | same_value
  | offset_extended
  | offset_extended_sf
  | val_offset
  | val_offset_sf
  | register
  | expression
  | val_expression
  | restore_extended
  | remember_state
  | restore_state
  | nop
  | unknown
deriving DecidableEq

/-- CFI opcode classification (`dwarf.h` `DW_CFA_*` values): the primary
opcodes carry their embedded operand, extended opcodes dispatch on the full
byte, and everything else is `unknown`. -/
def classify_cfa_op (op : Nat) : CfaOpClass :=
  if op &&& 0xc0 = 0x40 then .advance_loc (op &&& 0x3f)
  else if op &&& 0xc0 = 0x80 then .offset_small (op &&& 0x3f)
  else if op &&& 0xc0 = 0xc0 then .restore_small (op &&& 0x3f)
  else if op = 0x01 then .set_loc
  else if op = 0x02 then .advance_loc1
  else if op = 0x03 then .advance_loc2
  else if op = 0x04 then .advance_loc4
  else if op = 0x0c then .def_cfa
  else if op = 0x12 then .def_cfa_sf
  else if op = 0x0d then .def_cfa_register
  else if op = 0x0e then .def_cfa_offset
  else if op = 0x13 then .def_cfa_offset_sf
  else if op = 0x0f then .def_cfa_expression
  else if op = 0x07 then .undefined
  else if op = 0x08 then .same_value
  else if op = 0x05 then .offset_extended
  else if op = 0x11 then .offset_extended_sf
  else if op = 0x14 then .val_offset
  else if op = 0x15 then .val_offset_sf
  else if op = 0x09 then .register
  else if op = 0x10 then .expression
  else if op = 0x16 then .val_expression
  else if op = 0x06 then .restore_extended
  else if op = 0x0a then .remember_state
  else if op = 0x0b then .restore_state
  else if op = 0x00 then .nop
  else .unknown

/-- Execution context for one `drgn_eval_dwarf_cfi` call: the owning
section's bytes, the CIE and FDE, the target PC, the platform's DWARF
register mapping, and the cached section base addresses for encoded
pointers. -/
structure CfiCtx where
  data : List Nat
  little_endian : Bool
  cie : drgn_dwarf_cie
  fde : drgn_dwarf_fde
  target : Nat
  regmap : Nat → Option Nat
  pcrel_base : Nat
  textrel_base : Nat
  datarel_base : Nat

/-- Result of one CFI instruction: an error, a stop because the current
location passed the target (`goto found`), or the next state. -/
inductive CfiStepRes where
  | fail (e : DrgnErr)
  | stop (pc : Nat)
  | next (row : drgn_cfi_row) (pc pos : Nat) (stack : List drgn_cfi_row)

/-- Execute one CFI instruction (the body of `drgn_eval_dwarf_cfi`'s
`switch`).  `initialRow` is `NULL` (`none`) during the pass over the CIE's
initial instructions, in which the location-advance and restore opcodes are
invalid; register-rule opcodes whose DWARF register has no internal mapping
consume their operands and change nothing, while `DW_CFA_def_cfa[_sf]`
and `DW_CFA_def_cfa_register` with an unmappable register set the CFA rule
to `undefined`. -/
def drgn_eval_dwarf_cfi_op (ctx : CfiCtx) (endPos : Nat)
    (initialRow : Option drgn_cfi_row) (op pos : Nat) (row : drgn_cfi_row)
    (pc : Nat) (stack : List drgn_cfi_row) : CfiStepRes :=
  match classify_cfa_op op with
  | .set_loc =>
    match initialRow with
    | none => .fail (.invalid_initial_opcode op)
    | some _ =>
      match drgn_dwarf_cfi_next_encoded ctx.data endPos ctx.little_endian
          ctx.pcrel_base ctx.textrel_base ctx.datarel_base
          ctx.cie.address_size ctx.cie.address_encoding
          ctx.fde.initial_location pos with
      | .error e => .fail e
      | .ok (tmp, pos') =>
        if tmp ≤ pc then .fail .set_loc_not_greater
        else if tmp > ctx.target then .stop tmp
        else .next row tmp pos' stack
  | .advance_loc delta =>
    match initialRow with
    | none => .fail (.invalid_initial_opcode op)
    | some _ =>
      match drgn_cfa_advance_loc delta ctx.cie.code_alignment_factor pc
          ctx.target ctx.cie.address_size with
      | .error e => .fail e
      | .ok (pc', past) => if past then .stop pc' else .next row pc' pos stack
  | .advance_loc1 =>
    match initialRow with
    | none => .fail (.invalid_initial_opcode op)
    | some _ =>
      match read_u8 ctx.data endPos pos with
      | none => .fail .out_of_bounds
      | some (tmp, pos') =>
        match drgn_cfa_advance_loc tmp ctx.cie.code_alignment_factor pc
            ctx.target ctx.cie.address_size with
        | .error e => .fail e
        | .ok (pc', past) => if past then .stop pc' else .next row pc' pos' stack
  | .advance_loc2 =>
    match initialRow with
    | none => .fail (.invalid_initial_opcode op)
    | some _ =>
      match read_uint ctx.data endPos pos 2 ctx.little_endian with
      | none => .fail .out_of_bounds
      | some (tmp, pos') =>
        match drgn_cfa_advance_loc tmp ctx.cie.code_alignment_factor pc
            ctx.target ctx.cie.address_size with
        | .error e => .fail e
        | .ok (pc', past) => if past then .stop pc' else .next row pc' pos' stack
  | .advance_loc4 =>
    match initialRow with
    | none => .fail (.invalid_initial_opcode op)
    | some _ =>
      match read_uint ctx.data endPos pos 4 ctx.little_endian with
      | none => .fail .out_of_bounds
      | some (tmp, pos') =>
        match drgn_cfa_advance_loc tmp ctx.cie.code_alignment_factor pc
            ctx.target ctx.cie.address_size with
        | .error e => .fail e
        | .ok (pc', past) => if past then .stop pc' else .next row pc' pos' stack
  | .def_cfa =>
    match read_uleb ctx.data endPos pos with
    | none => .fail .out_of_bounds
    | some (r, p1) =>
      match drgn_dwarf_cfi_next_offset ctx.data endPos p1 with
      | .error e => .fail e
      | .ok (off, p2) =>
        match ctx.regmap r with
        | none => .next (drgn_cfi_row_set_cfa row .undefined) pc p2 stack
        | some ir =>
          .next (drgn_cfi_row_set_cfa row (.register_plus_offset ir off)) pc p2 stack
  | .def_cfa_sf =>
    match read_uleb ctx.data endPos pos with
    | none => .fail .out_of_bounds
    | some (r, p1) =>
      match drgn_dwarf_cfi_next_offset_sf ctx.cie.data_alignment_factor
          ctx.data endPos p1 with
      | .error e => .fail e
      | .ok (off, p2) =>
        match ctx.regmap r with
        | none => .next (drgn_cfi_row_set_cfa row .undefined) pc p2 stack
        | some ir =>
          .next (drgn_cfi_row_set_cfa row (.register_plus_offset ir off)) pc p2 stack
  | .def_cfa_register =>
    match row.cfa with
    | .register_plus_offset _ off =>
      match read_uleb ctx.data endPos pos with
      | none => .fail .out_of_bounds
      | some (r, p1) =>
        match ctx.regmap r with
        | none => .next (drgn_cfi_row_set_cfa row .undefined) pc p1 stack
        | some ir =>
          .next (drgn_cfi_row_set_cfa row (.register_plus_offset ir off)) pc p1 stack
    | _ => .fail .incompatible_cfa_rule
  | .def_cfa_offset =>
    match row.cfa with
    | .register_plus_offset rn _ =>
      match drgn_dwarf_cfi_next_offset ctx.data endPos pos with
      | .error e => .fail e
      | .ok (off, p1) =>
        .next (drgn_cfi_row_set_cfa row (.register_plus_offset rn off)) pc p1 stack
    | _ => .fail .incompatible_cfa_rule
  | .def_cfa_offset_sf =>
    match row.cfa with
    | .register_plus_offset rn _ =>
      match drgn_dwarf_cfi_next_offset_sf ctx.cie.data_alignment_factor
          ctx.data endPos pos with
      | .error e => .fail e
      | .ok (off, p1) =>
        .next (drgn_cfi_row_set_cfa row (.register_plus_offset rn off)) pc p1 stack
    | _ => .fail .incompatible_cfa_rule
  | .def_cfa_expression =>
    match drgn_dwarf_cfi_next_block ctx.data endPos pos with
    | .error e => .fail e
    | .ok (e, p1) =>
      .next (drgn_cfi_row_set_cfa row (.dwarf_expression false e)) pc p1 stack
  | .undefined =>
    match read_uleb ctx.data endPos pos with
    | none => .fail .out_of_bounds
    | some (r, p1) =>
      match ctx.regmap r with
      | none => .next row pc p1 stack
      | some ir => .next (drgn_cfi_row_set_register row ir .undefined) pc p1 stack
  | .same_value =>
    match read_uleb ctx.data endPos pos with
    | none => .fail .out_of_bounds
    | some (r, p1) =>
      match ctx.regmap r with
      | none => .next row pc p1 stack
      | some ir =>
        .next (drgn_cfi_row_set_register row ir (.register_plus_offset ir 0)) pc p1 stack
  | .offset_small reg =>
    match drgn_dwarf_cfi_next_offset_f ctx.cie.data_alignment_factor
        ctx.data endPos pos with
    | .error e => .fail e
    | .ok (off, p1) =>
      match ctx.regmap reg with
      | none => .next row pc p1 stack
      | some ir =>
        .next (drgn_cfi_row_set_register row ir (.at_cfa_plus_offset off)) pc p1 stack
  | .offset_extended =>
    match read_uleb ctx.data endPos pos with
    | none => .fail .out_of_bounds
    | some (r, p1) =>
      match drgn_dwarf_cfi_next_offset_f ctx.cie.data_alignment_factor
          ctx.data endPos p1 with
      | .error e => .fail e
      | .ok (off, p2) =>
        match ctx.regmap r with
        | none => .next row pc p2 stack
        | some ir =>
          .next (drgn_cfi_row_set_register row ir (.at_cfa_plus_offset off)) pc p2 stack
  | .offset_extended_sf =>
    match read_uleb ctx.data endPos pos with
    | none => .fail .out_of_bounds
    | some (r, p1) =>
      match drgn_dwarf_cfi_next_offset_sf ctx.cie.data_alignment_factor
          ctx.data endPos p1 with
      | .error e => .fail e
      | .ok (off, p2) =>
        match ctx.regmap r with
        | none => .next row pc p2 stack
        | some ir =>
          .next (drgn_cfi_row_set_register row ir (.at_cfa_plus_offset off)) pc p2 stack
  | .val_offset =>
    match read_uleb ctx.data endPos pos with
    | none => .fail .out_of_bounds
    | some (r, p1) =>
      match drgn_dwarf_cfi_next_offset_f ctx.cie.data_alignment_factor
          ctx.data endPos p1 with
      | .error e => .fail e
      | .ok (off, p2) =>
        match ctx.regmap r with
        | none => .next row pc p2 stack
        | some ir =>
          .next (drgn_cfi_row_set_register row ir (.cfa_plus_offset off)) pc p2 stack
  | .val_offset_sf =>
    match read_uleb ctx.data endPos pos with
    | none => .fail .out_of_bounds
    | some (r, p1) =>
      match drgn_dwarf_cfi_next_offset_sf ctx.cie.data_alignment_factor
          ctx.data endPos p1 with
      | .error e => .fail e
      | .ok (off, p2) =>
        match ctx.regmap r with
        | none => .next row pc p2 stack
        | some ir =>
          .next (drgn_cfi_row_set_register row ir (.cfa_plus_offset off)) pc p2 stack
  | .register =>
    match read_uleb ctx.data endPos pos with
    | none => .fail .out_of_bounds
    | some (r1, p1) =>
      match read_uleb ctx.data endPos p1 with
      | none => .fail .out_of_bounds
      | some (r2, p2) =>
        match ctx.regmap r1 with
        | none => .next row pc p2 stack
        | some ir1 =>
          match ctx.regmap r2 with
          | none => .next (drgn_cfi_row_set_register row ir1 .undefined) pc p2 stack
          | some ir2 =>
            .next (drgn_cfi_row_set_register row ir1 (.register_plus_offset ir2 0))
              pc p2 stack
  | .expression =>
    match read_uleb ctx.data endPos pos with
    | none => .fail .out_of_bounds
    | some (r, p1) =>
      match drgn_dwarf_cfi_next_block ctx.data endPos p1 with
      | .error e => .fail e
      | .ok (ex, p2) =>
        match ctx.regmap r with
        | none => .next row pc p2 stack
        | some ir =>
          .next (drgn_cfi_row_set_register row ir (.at_dwarf_expression true ex))
            pc p2 stack
  | .val_expression =>
    match read_uleb ctx.data endPos pos with
    | none => .fail .out_of_bounds
    | some (r, p1) =>
      match drgn_dwarf_cfi_next_block ctx.data endPos p1 with
      | .error e => .fail e
      | .ok (ex, p2) =>
        match ctx.regmap r with
        | none => .next row pc p2 stack
        | some ir =>
          .next (drgn_cfi_row_set_register row ir (.dwarf_expression true ex))
            pc p2 stack
  | .restore_small reg =>
    match initialRow with
    | none => .fail (.invalid_initial_opcode op)
    | some irow =>
      match ctx.regmap reg with
      | none => .next row pc pos stack
      | some ir =>
        .next (drgn_cfi_row_set_register row ir (drgn_cfi_row_get_register irow ir))
          pc pos stack
  | .restore_extended =>
    match initialRow with
    | none => .fail (.invalid_initial_opcode op)
    | some irow =>
      match read_uleb ctx.data endPos pos with
      | none => .fail .out_of_bounds
      | some (r, p1) =>
        match ctx.regmap r with
        | none => .next row pc p1 stack
        | some ir =>
          .next (drgn_cfi_row_set_register row ir (drgn_cfi_row_get_register irow ir))
            pc p1 stack
  | .remember_state => .next row pc pos (row :: stack)
  | .restore_state =>
    match stack with
    | [] => .fail .restore_state_empty
    | r' :: rest => .next r' pc pos rest
  | .nop => .next row pc pos stack
  | .unknown => .fail (.unknown_cfi_opcode op)

/-- Main loop of `drgn_eval_dwarf_cfi` over `[pos, endPos)`; returns the
resulting row and the final current location. -/
def drgn_eval_dwarf_cfi_go (ctx : CfiCtx) (endPos : Nat)
    (initialRow : Option drgn_cfi_row) :
    Nat → Nat → drgn_cfi_row → Nat → List drgn_cfi_row →
      Except DrgnErr (drgn_cfi_row × Nat)
  | 0, pos, row, pc, _ =>
    if pos < endPos then .error .out_of_fuel else .ok (row, pc)
  | fuel + 1, pos, row, pc, stack =>
    if pos < endPos then
      match drgn_eval_dwarf_cfi_op ctx endPos initialRow (ctx.data.getD pos 0)
          (pos + 1) row pc stack with
      | .fail e => .error e
      | .stop pc' => .ok (row, pc')
      | .next row' pc' pos' stack' =>
        drgn_eval_dwarf_cfi_go ctx endPos initialRow fuel pos' row' pc' stack'
    else .ok (row, pc)

/-- `drgn_eval_dwarf_cfi`: execute the CFI instructions in
`[startPos, endPos)` of the section, starting from `row` at the FDE's
initial location, stopping once the current location passes the target.
`initialRow = none` is the pass over the CIE's initial instructions. -/
def drgn_eval_dwarf_cfi (ctx : CfiCtx) (initialRow : Option drgn_cfi_row)
    (startPos endPos : Nat) (row : drgn_cfi_row) :
    Except DrgnErr (drgn_cfi_row × Nat) :=
  drgn_eval_dwarf_cfi_go ctx endPos initialRow (endPos - startPos + 1) startPos
    row ctx.fde.initial_location []

/-- `drgn_debug_info_find_cfi_in_fde`: run the CIE's initial instructions on
the platform's default row (with `initial_row = NULL`), then the FDE's
instructions on (a copy of) the resulting row, with that row as the restore
reference. -/
def drgn_debug_info_find_cfi_in_fde (ctx : CfiCtx)
    (cieStart cieEnd fdeStart fdeEnd : Nat) (defaultRow : drgn_cfi_row) :
    Except DrgnErr (drgn_cfi_row × Nat) :=
  match drgn_eval_dwarf_cfi ctx none cieStart cieEnd defaultRow with
  | .error e => .error e
  | .ok (row1, _) => drgn_eval_dwarf_cfi ctx (some row1) fdeStart fdeEnd row1

/-- CIE used by the concrete CFI scenarios: 64-bit absolute addressing,
`code_alignment_factor` 1, `data_alignment_factor` -8. -/
def sample_cie : drgn_dwarf_cie := {
  is_eh := false
  address_size := 8
  address_encoding := 0
  have_augmentation_length := false
  signal_frame := false
  return_address_register := 16
  code_alignment_factor := 1
  data_alignment_factor := -8 }

/-- An all-undefined default row (the platform's default CFI row for the
concrete scenarios). -/
def default_row : drgn_cfi_row := { cfa := .undefined, regs := [] }

/-- Section bytes for the spec's CIE/FDE scenario:
CIE initial instructions `def_cfa(r7, 8); offset(r16, factored 1)` in
`[0, 5)` followed by FDE instructions `advance_loc(4); def_cfa_offset(16)`
in `[5, 8)`; FDE initial location 100. -/
def sample_cfi_ctx (target : Nat) : CfiCtx := {
  data := [0x0c, 0x07, 0x08, 0x90, 0x01, 0x44, 0x0e, 0x10]
  little_endian := true
  cie := sample_cie
  fde := { initial_location := 100, address_range := 32, cie := 0 }
  target := target
  regmap := fun r => if r = 7 ∨ r = 16 then some r else none
  pcrel_base := 0
  textrel_base := 0
  datarel_base := 0 }

/-- FDE instruction stream `set_loc(150); def_cfa(r7, 8)` under
`code_alignment_factor` 2, from initial location 100 with target 200. -/
def setloc_ctx : CfiCtx := {
  data := [0x01, 150, 0, 0, 0, 0, 0, 0, 0, 0x0c, 0x07, 0x08]
  little_endian := true
  cie := { sample_cie with code_alignment_factor := 2 }
  fde := { initial_location := 100, address_range := 200, cie := 0 }
  target := 200
  regmap := fun r => if r = 7 ∨ r = 16 then some r else none
  pcrel_base := 0
  textrel_base := 0
  datarel_base := 0 }

theorem c2_advance (tmp caf pc target asize : Nat)
    (h : pc + tmp * caf ≤ uint_max asize) (ha : asize ≤ 8) :
    drgn_cfa_advance_loc tmp caf pc target asize =
      .ok (pc + tmp * caf, decide (pc + tmp * caf > target)) := by
  have hmax : uint_max asize < 2 ^ 64 := by
    have h1 : 2 ^ (8 * asize) ≤ 2 ^ 64 := Nat.pow_le_pow_right (by norm_num) (by omega)
    have h2 : 0 < 2 ^ (8 * asize) := Nat.pos_pow_of_pos _ (by norm_num)
    unfold uint_max
    omega
  unfold drgn_cfa_advance_loc
  rw [if_neg]
  push_neg
  refine ⟨by omega, by omega, by omega⟩

theorem c2_dispatch (ctx : CfiCtx) (endPos op pos : Nat)
    (irow row : drgn_cfi_row) (pc : Nat) (stack : List drgn_cfi_row) (delta : Nat)
    (hop : classify_cfa_op op = .advance_loc delta) :
    drgn_eval_dwarf_cfi_op ctx endPos (some irow) op pos row pc stack =
      match drgn_cfa_advance_loc delta ctx.cie.code_alignment_factor pc
          ctx.target ctx.cie.address_size with
      | .error e => .fail e
      | .ok (pc', past) => if past then .stop pc' else .next row pc' pos stack := by
  simp [drgn_eval_dwarf_cfi_op, hop]

theorem c2_setloc (ctx : CfiCtx) (endPos op pos : Nat)
    (irow row : drgn_cfi_row) (pc : Nat) (stack : List drgn_cfi_row) (v p' : Nat)
    (hop : classify_cfa_op op = .set_loc) (henc : ctx.cie.address_encoding = 0)
    (hread : read_uint ctx.data endPos pos ctx.cie.address_size
      ctx.little_endian = some (v, p')) :
    drgn_eval_dwarf_cfi_op ctx endPos (some irow) op pos row pc stack =
      (if v % 2 ^ (8 * ctx.cie.address_size) ≤ pc then .fail .set_loc_not_greater
       else if ctx.target < v % 2 ^ (8 * ctx.cie.address_size) then
         .stop (v % 2 ^ (8 * ctx.cie.address_size))
       else .next row (v % 2 ^ (8 * ctx.cie.address_size)) p' stack) := by
  simp only [drgn_eval_dwarf_cfi_op, hop]
  simp [drgn_dwarf_cfi_next_encoded, henc, hread]

theorem c2_initial (ctx : CfiCtx) (endPos op pos : Nat) (row : drgn_cfi_row)
    (pc : Nat) (stack : List drgn_cfi_row)
    (h : (∃ d, classify_cfa_op op = .advance_loc d) ∨
      classify_cfa_op op = .advance_loc1 ∨ classify_cfa_op op = .advance_loc2 ∨
      classify_cfa_op op = .advance_loc4 ∨ classify_cfa_op op = .set_loc ∨
      (∃ r, classify_cfa_op op = .restore_small r) ∨
      classify_cfa_op op = .restore_extended) :
    drgn_eval_dwarf_cfi_op ctx endPos none op pos row pc stack =
      .fail (.invalid_initial_opcode op) := by
  rcases h with ⟨d, h⟩ | h | h | h | h | ⟨r, h⟩ | h <;>
    simp [drgn_eval_dwarf_cfi_op, h]

/-- Claim C2 (counterexample): `DW_CFA_set_loc` does not advance the
location by `delta * code_alignment_factor`: with factor 2, initial
location 100, and target 200, `set_loc(150); def_cfa(r7, 8)` ends at
location 150 (and the following instruction executed), whereas the claimed
reading would give location `100 + 150 * 2 = 400 > 200` and stop before
`def_cfa`. -/
theorem claim_C2_counterexample :
    drgn_eval_dwarf_cfi setloc_ctx (some default_row) 0 12 default_row =
        .ok ({ cfa := .register_plus_offset 7 8, regs := [] }, 150) ∧
      (150 : Nat) ≠ 100 + 150 * 2 ∧
      setloc_ctx.cie.code_alignment_factor = 2 ∧
      setloc_ctx.fde.initial_location = 100 ∧ setloc_ctx.target = 200 :=
  ⟨by rfl, by decide, rfl, rfl, rfl⟩

/-- Claim C2 (amended): during CFI instruction execution the
`DW_CFA_advance_loc/1/2/4` opcodes advance the current location by
`delta * code_alignment_factor` (with overflow checks), while
`DW_CFA_set_loc` sets the current location to its decoded operand and errors
if that is not greater than the current location; execution stops as soon as
the current location exceeds the target, returning the row in effect just
before that advance; in the pass over the CIE's initial instructions
(`initial_row == NULL`) any advance opcode and `DW_CFA_restore*` raise a
structured error.  For the CIE `def_cfa(r7,8); offset(r16,-8)` with FDE
`advance_loc(4); def_cfa_offset(16)`, target `initial_location + 3` yields
`CFA = r7+8` and target `initial_location + 10` yields `CFA = r7+16`, with
`r16 = at(CFA-8)` in both. -/
theorem claim_C2_theorem :
    (∀ tmp caf pc target asize, pc + tmp * caf ≤ uint_max asize → asize ≤ 8 →
      drgn_cfa_advance_loc tmp caf pc target asize =
        .ok (pc + tmp * caf, decide (pc + tmp * caf > target))) ∧
    (∀ (ctx : CfiCtx) (endPos op pos : Nat) (irow row : drgn_cfi_row) (pc : Nat)
        (stack : List drgn_cfi_row) (delta : Nat),
      classify_cfa_op op = .advance_loc delta →
      drgn_eval_dwarf_cfi_op ctx endPos (some irow) op pos row pc stack =
        match drgn_cfa_advance_loc delta ctx.cie.code_alignment_factor pc
            ctx.target ctx.cie.address_size with
        | .error e => .fail e
        | .ok (pc', past) => if past then .stop pc' else .next row pc' pos stack) ∧
    (∀ (ctx : CfiCtx) (endPos op pos : Nat) (irow row : drgn_cfi_row) (pc : Nat)
        (stack : List drgn_cfi_row) (v p' : Nat),
      classify_cfa_op op = .set_loc → ctx.cie.address_encoding = 0 →
      read_uint ctx.data endPos pos ctx.cie.address_size
        ctx.little_endian = some (v, p') →
      drgn_eval_dwarf_cfi_op ctx endPos (some irow) op pos row pc stack =
        (if v % 2 ^ (8 * ctx.cie.address_size) ≤ pc then .fail .set_loc_not_greater
         else if ctx.target < v % 2 ^ (8 * ctx.cie.address_size) then
           .stop (v % 2 ^ (8 * ctx.cie.address_size))
         else .next row (v % 2 ^ (8 * ctx.cie.address_size)) p' stack)) ∧
    (∀ (ctx : CfiCtx) (endPos op pos : Nat) (row : drgn_cfi_row) (pc : Nat)
        (stack : List drgn_cfi_row),
      ((∃ d, classify_cfa_op op = .advance_loc d) ∨
        classify_cfa_op op = .advance_loc1 ∨ classify_cfa_op op = .advance_loc2 ∨
        classify_cfa_op op = .advance_loc4 ∨ classify_cfa_op op = .set_loc ∨
        (∃ r, classify_cfa_op op = .restore_small r) ∨
        classify_cfa_op op = .restore_extended) →
      drgn_eval_dwarf_cfi_op ctx endPos none op pos row pc stack =
        .fail (.invalid_initial_opcode op)) ∧
    drgn_debug_info_find_cfi_in_fde (sample_cfi_ctx 103) 0 5 5 8 default_row =
      .ok ({ cfa := .register_plus_offset 7 8,
             regs := [(16, .at_cfa_plus_offset (-8))] }, 104) ∧
    drgn_debug_info_find_cfi_in_fde (sample_cfi_ctx 110) 0 5 5 8 default_row =
      .ok ({ cfa := .register_plus_offset 7 16,
             regs := [(16, .at_cfa_plus_offset (-8))] }, 104) :=
  ⟨c2_advance, c2_dispatch, c2_setloc, c2_initial, by rfl, by rfl⟩

theorem claim_C2_witness :
    drgn_cfa_advance_loc 3 2 100 105 8 =
        .ok (100 + 3 * 2, decide (100 + 3 * 2 > 105)) ∧
      drgn_eval_dwarf_cfi_op (sample_cfi_ctx 103) 8 (some default_row) 0x44 6
          default_row 100 [] =
        (match drgn_cfa_advance_loc 4 (sample_cfi_ctx 103).cie.code_alignment_factor
            100 (sample_cfi_ctx 103).target (sample_cfi_ctx 103).cie.address_size with
        | .error e => .fail e
        | .ok (pc', past) =>
          if past then .stop pc' else .next default_row pc' 6 []) ∧
      drgn_eval_dwarf_cfi_op setloc_ctx 12 (some default_row) 0x01 1
          default_row 100 [] =
        (if 150 % 2 ^ (8 * setloc_ctx.cie.address_size) ≤ 100 then
           .fail .set_loc_not_greater
         else if setloc_ctx.target < 150 % 2 ^ (8 * setloc_ctx.cie.address_size) then
           .stop (150 % 2 ^ (8 * setloc_ctx.cie.address_size))
         else .next default_row (150 % 2 ^ (8 * setloc_ctx.cie.address_size)) 9 []) ∧
      drgn_eval_dwarf_cfi_op (sample_cfi_ctx 103) 8 none 0x44 6
          default_row 100 [] = .fail (.invalid_initial_opcode 0x44) :=
  ⟨claim_C2_theorem.1 3 2 100 105 8 (by decide) (by decide),
   claim_C2_theorem.2.1 (sample_cfi_ctx 103) 8 0x44 6 default_row default_row
     100 [] 4 (by decide),
   claim_C2_theorem.2.2.1 setloc_ctx 12 0x01 1 default_row default_row 100 []
     150 9 (by decide) (by decide) (by decide),
   claim_C2_theorem.2.2.2.1 (sample_cfi_ctx 103) 8 0x44 6 default_row 100 []
     (Or.inl ⟨4, by decide⟩)⟩

/-- Context for the unmappable-register scenarios: DWARF registers above 17
have no internal mapping. -/
def c10_ctx (bytes : List Nat) : CfiCtx := {
  data := bytes
  little_endian := true
  cie := sample_cie
  fde := { initial_location := 100, address_range := 32, cie := 0 }
  target := 1000
  regmap := fun r => if r ≤ 17 then some r else none
  pcrel_base := 0
  textrel_base := 0
  datarel_base := 0 }

/-- Claim C10: a register-rule CFI instruction (`DW_CFA_undefined`,
`same_value`, `offset*`, `val_offset*`, `register`, `expression`,
`val_expression`, `restore`, `restore_extended`) whose DWARF register number
has no internal mapping is silently ignored after consuming its operands —
the row, location, and state stack are unchanged and no error is raised —
while `DW_CFA_def_cfa` / `DW_CFA_def_cfa_sf` with an unmappable register set
the CFA rule to `undefined`.  Register 20 is unmappable in `c10_ctx`; each
conjunct quantifies over the incoming row, location, and state stack. -/
theorem claim_C10_theorem :
    (∀ (row : drgn_cfi_row) (pc : Nat) (stack : List drgn_cfi_row),
      drgn_eval_dwarf_cfi_op (c10_ctx [20]) 1 (some default_row) 0x07 0
        row pc stack = .next row pc 1 stack) ∧
    (∀ (row : drgn_cfi_row) (pc : Nat) (stack : List drgn_cfi_row),
      drgn_eval_dwarf_cfi_op (c10_ctx [20]) 1 (some default_row) 0x08 0
        row pc stack = .next row pc 1 stack) ∧
    (∀ (row : drgn_cfi_row) (pc : Nat) (stack : List drgn_cfi_row),
      drgn_eval_dwarf_cfi_op (c10_ctx [0x01]) 1 (some default_row) 0x94 0
        row pc stack = .next row pc 1 stack) ∧
    (∀ (row : drgn_cfi_row) (pc : Nat) (stack : List drgn_cfi_row),
      drgn_eval_dwarf_cfi_op (c10_ctx [20, 0x01]) 2 (some default_row) 0x05 0
        row pc stack = .next row pc 2 stack) ∧
    (∀ (row : drgn_cfi_row) (pc : Nat) (stack : List drgn_cfi_row),
      drgn_eval_dwarf_cfi_op (c10_ctx [20, 0x7f]) 2 (some default_row) 0x11 0
        row pc stack = .next row pc 2 stack) ∧
    (∀ (row : drgn_cfi_row) (pc : Nat) (stack : List drgn_cfi_row),
      drgn_eval_dwarf_cfi_op (c10_ctx [20, 0x01]) 2 (some default_row) 0x14 0
        row pc stack = .next row pc 2 stack) ∧
    (∀ (row : drgn_cfi_row) (pc : Nat) (stack : List drgn_cfi_row),
      drgn_eval_dwarf_cfi_op (c10_ctx [20, 0x7f]) 2 (some default_row) 0x15 0
        row pc stack = .next row pc 2 stack) ∧
    (∀ (row : drgn_cfi_row) (pc : Nat) (stack : List drgn_cfi_row),
      drgn_eval_dwarf_cfi_op (c10_ctx [20, 0x07]) 2 (some default_row) 0x09 0
        row pc stack = .next row pc 2 stack) ∧
    (∀ (row : drgn_cfi_row) (pc : Nat) (stack : List drgn_cfi_row),
      drgn_eval_dwarf_cfi_op (c10_ctx [20, 0x01, 0x96]) 3 (some default_row) 0x10 0
        row pc stack = .next row pc 3 stack) ∧
    (∀ (row : drgn_cfi_row) (pc : Nat) (stack : List drgn_cfi_row),
      drgn_eval_dwarf_cfi_op (c10_ctx [20, 0x01, 0x96]) 3 (some default_row) 0x16 0
        row pc stack = .next row pc 3 stack) ∧
    (∀ (row : drgn_cfi_row) (pc : Nat) (stack : List drgn_cfi_row),
      drgn_eval_dwarf_cfi_op (c10_ctx []) 0 (some default_row) 0xd4 0
        row pc stack = .next row pc 0 stack) ∧
    (∀ (row : drgn_cfi_row) (pc : Nat) (stack : List drgn_cfi_row),
      drgn_eval_dwarf_cfi_op (c10_ctx [20]) 1 (some default_row) 0x06 0
        row pc stack = .next row pc 1 stack) ∧
    (∀ (row : drgn_cfi_row) (pc : Nat) (stack : List drgn_cfi_row),
      drgn_eval_dwarf_cfi_op (c10_ctx [20, 0x08]) 2 (some default_row) 0x0c 0
        row pc stack = .next (drgn_cfi_row_set_cfa row .undefined) pc 2 stack) ∧
    (∀ (row : drgn_cfi_row) (pc : Nat) (stack : List drgn_cfi_row),
      drgn_eval_dwarf_cfi_op (c10_ctx [20, 0x01]) 2 (some default_row) 0x12 0
        row pc stack = .next (drgn_cfi_row_set_cfa row .undefined) pc 2 stack) :=
  by and_intros <;> intro row pc stack <;> rfl

/-!
## FDE sort + dedup (`drgn_debug_info_parse_frames`)
-/

/-- Boolean-to-integer coercion as produced by C arithmetic on `bool`. -/
def bool_to_int (b : Bool) : Int := if b then 1 else 0

/-- `drgn_dwarf_fde_compar`: `qsort_r` comparator ordering FDEs by
`initial_location`, breaking ties by the owning CIE's `is_eh` so that
`.debug_frame` entries sort before `.eh_frame` entries. -/
def drgn_dwarf_fde_compar (cies : Nat → drgn_dwarf_cie)
    (a b : drgn_dwarf_fde) : Int :=
  if a.initial_location < b.initial_location then -1
  else if b.initial_location < a.initial_location then 1
  else bool_to_int (cies a.cie).is_eh - bool_to_int (cies b.cie).is_eh

/-- Deduplication scan of `drgn_debug_info_parse_frames` after `qsort_r`:
keep an element only when its `initial_location` differs from the last kept
element's. -/
def drgn_dedup_fdes_go (last : drgn_dwarf_fde) :
    List drgn_dwarf_fde → List drgn_dwarf_fde
  | [] => []
  | y :: ys =>
    if y.initial_location = last.initial_location then drgn_dedup_fdes_go last ys
    else y :: drgn_dedup_fdes_go y ys

/-- The sorted FDE array after duplicate removal (the `src`/`dst`
compaction loop in `drgn_debug_info_parse_frames`). -/
def drgn_dedup_fdes : List drgn_dwarf_fde → List drgn_dwarf_fde
  | [] => []
  | x :: xs => x :: drgn_dedup_fdes_go x xs

theorem compar_le_cases (cies : Nat → drgn_dwarf_cie) (a b : drgn_dwarf_fde)
    (h : drgn_dwarf_fde_compar cies a b ≤ 0) :
    a.initial_location < b.initial_location ∨
      (a.initial_location = b.initial_location ∧
        ((cies a.cie).is_eh = true → (cies b.cie).is_eh = true)) := by
  unfold drgn_dwarf_fde_compar at h
  split at h
  · left; assumption
  · split at h
    · omega
    · right
      constructor
      · omega
      · intro ha
        by_cases hb : (cies b.cie).is_eh = true
        · exact hb
        · simp [bool_to_int, ha, hb] at h

theorem dedup_go_subset : ∀ (xs : List drgn_dwarf_fde) (last g : drgn_dwarf_fde),
    g ∈ drgn_dedup_fdes_go last xs → g ∈ xs := by
  intro xs
  induction xs with
  | nil => intro last g h; simp [drgn_dedup_fdes_go] at h
  | cons y ys ih =>
    intro last g h
    unfold drgn_dedup_fdes_go at h
    split at h
    · exact List.mem_cons_of_mem _ (ih last g h)
    · rcases List.mem_cons.mp h with h | h
      · exact h ▸ List.mem_cons_self _ _
      · exact List.mem_cons_of_mem _ (ih y g h)

theorem pairwise_le_drop_middle (cies : Nat → drgn_dwarf_cie)
    (last y : drgn_dwarf_fde) (ys : List drgn_dwarf_fde)
    (h : List.Pairwise (fun a b => drgn_dwarf_fde_compar cies a b ≤ 0) (last :: y :: ys)) :
    List.Pairwise (fun a b => drgn_dwarf_fde_compar cies a b ≤ 0) (last :: ys) := by
  rcases List.pairwise_cons.mp h with ⟨h1, h2⟩
  exact List.pairwise_cons.mpr ⟨fun f hf => h1 f (List.mem_cons_of_mem _ hf),
    (List.pairwise_cons.mp h2).2⟩

theorem dedup_go_loc_gt (cies : Nat → drgn_dwarf_cie) :
    ∀ (xs : List drgn_dwarf_fde) (last : drgn_dwarf_fde),
    List.Pairwise (fun a b => drgn_dwarf_fde_compar cies a b ≤ 0) (last :: xs) →
    ∀ g ∈ drgn_dedup_fdes_go last xs, last.initial_location < g.initial_location := by
  intro xs
  induction xs with
  | nil => intro last _ g h; simp [drgn_dedup_fdes_go] at h
  | cons y ys ih =>
    intro last hp g hg
    have hley : drgn_dwarf_fde_compar cies last y ≤ 0 :=
      (List.pairwise_cons.mp hp).1 y (List.mem_cons_self _ _)
    unfold drgn_dedup_fdes_go at hg
    split at hg
    case isTrue heq =>
      exact ih last (pairwise_le_drop_middle cies last y ys hp) g hg
    case isFalse hne =>
      have hlt : last.initial_location < y.initial_location := by
        rcases compar_le_cases cies last y hley with h | ⟨h, _⟩
        · exact h
        · exact absurd h.symm hne
      rcases List.mem_cons.mp hg with h | h
      · subst h; exact hlt
      · have := ih y (List.pairwise_cons.mp hp).2 g h
        omega

theorem dedup_go_sorted (cies : Nat → drgn_dwarf_cie) :
    ∀ (xs : List drgn_dwarf_fde) (last : drgn_dwarf_fde),
    List.Pairwise (fun a b => drgn_dwarf_fde_compar cies a b ≤ 0) (last :: xs) →
    List.Pairwise (fun a b => a.initial_location < b.initial_location)
      (drgn_dedup_fdes_go last xs) := by
  intro xs
  induction xs with
  | nil => intro last _; simp [drgn_dedup_fdes_go]
  | cons y ys ih =>
    intro last hp
    unfold drgn_dedup_fdes_go
    split
    case isTrue heq =>
      exact ih last (pairwise_le_drop_middle cies last y ys hp)
    case isFalse hne =>
      have hpy := (List.pairwise_cons.mp hp).2
      exact List.pairwise_cons.mpr ⟨dedup_go_loc_gt cies ys y hpy, ih y hpy⟩

theorem dedup_go_pref (cies : Nat → drgn_dwarf_cie) :
    ∀ (xs : List drgn_dwarf_fde) (last : drgn_dwarf_fde),
    List.Pairwise (fun a b => drgn_dwarf_fde_compar cies a b ≤ 0) (last :: xs) →
    ∀ g ∈ drgn_dedup_fdes_go last xs, ∀ f ∈ xs,
      f.initial_location = g.initial_location →
      ((cies g.cie).is_eh = true → (cies f.cie).is_eh = true) := by
  intro xs
  induction xs with
  | nil => intro last _ g hg; simp [drgn_dedup_fdes_go] at hg
  | cons y ys ih =>
    intro last hp g hg f hf hfg
    have hpy := (List.pairwise_cons.mp hp).2
    unfold drgn_dedup_fdes_go at hg
    split at hg
    case isTrue heq =>
      have hp' := pairwise_le_drop_middle cies last y ys hp
      rcases List.mem_cons.mp hf with h | h
      · have := dedup_go_loc_gt cies ys last hp' g hg
        subst h
        omega
      · exact ih last hp' g hg f h hfg
    case isFalse hne =>
      rcases List.mem_cons.mp hg with h | h
      · subst h
        rcases List.mem_cons.mp hf with h' | h'
        · subst h'; exact id
        · have hle := (List.pairwise_cons.mp hpy).1 f h'
          rcases compar_le_cases cies g f hle with hlt | ⟨_, himp⟩
          · omega
          · exact himp
      · rcases List.mem_cons.mp hf with h' | h'
        · have := dedup_go_loc_gt cies ys y hpy g h
          subst h'
          omega
        · exact ih y hpy g h f h' hfg

theorem dedup_sorted (cies : Nat → drgn_dwarf_cie) (s : List drgn_dwarf_fde)
    (hp : List.Pairwise (fun a b => drgn_dwarf_fde_compar cies a b ≤ 0) s) :
    List.Pairwise (fun a b => a.initial_location < b.initial_location)
      (drgn_dedup_fdes s) := by
  cases s with
  | nil => simp [drgn_dedup_fdes]
  | cons x xs =>
    exact List.pairwise_cons.mpr
      ⟨dedup_go_loc_gt cies xs x hp, dedup_go_sorted cies xs x hp⟩

theorem dedup_pref (cies : Nat → drgn_dwarf_cie) (s : List drgn_dwarf_fde)
    (hp : List.Pairwise (fun a b => drgn_dwarf_fde_compar cies a b ≤ 0) s) :
    ∀ g ∈ drgn_dedup_fdes s, ∀ f ∈ s, f.initial_location = g.initial_location →
      ((cies g.cie).is_eh = true → (cies f.cie).is_eh = true) := by
  cases s with
  | nil => intro g hg; simp [drgn_dedup_fdes] at hg
  | cons x xs =>
    intro g hg f hf hfg
    rcases List.mem_cons.mp hg with h | h
    · subst h
      rcases List.mem_cons.mp hf with h' | h'
      · subst h'; exact id
      · have hle := (List.pairwise_cons.mp hp).1 f h'
        rcases compar_le_cases cies g f hle with hlt | ⟨_, himp⟩
        · omega
        · exact himp
    · rcases List.mem_cons.mp hf with h' | h'
      · have := dedup_go_loc_gt cies xs x hp g h
        subst h'
        omega
      · exact dedup_go_pref cies xs x hp g h f h' hfg

/-- Claim C1: after `drgn_debug_info_parse_frames` sorts the FDE array with
`drgn_dwarf_fde_compar` (modelled as any permutation `sorted` of the parsed
FDEs that is pairwise non-positive under the comparator, which is what
`qsort_r` guarantees) and removes duplicates, the result is strictly
increasing by `initial_location`; and whenever some parsed FDE at a given
`initial_location` came from `.debug_frame` (`is_eh = false`), the FDE
retained at that `initial_location` is a `.debug_frame` one. -/
theorem claim_C1_theorem (cies : Nat → drgn_dwarf_cie)
    (input sorted : List drgn_dwarf_fde) (hperm : sorted.Perm input)
    (hsort : List.Pairwise (fun a b => drgn_dwarf_fde_compar cies a b ≤ 0) sorted) :
    List.Pairwise (fun a b => a.initial_location < b.initial_location)
        (drgn_dedup_fdes sorted) ∧
      ∀ f ∈ input, (cies f.cie).is_eh = false →
        ∀ g ∈ drgn_dedup_fdes sorted,
          g.initial_location = f.initial_location → (cies g.cie).is_eh = false := by
  refine ⟨dedup_sorted cies sorted hsort, ?_⟩
  intro f hf hfe g hg hgl
  have hfs : f ∈ sorted := (hperm.mem_iff).mpr hf
  have himp := dedup_pref cies sorted hsort g hg f hfs hgl.symm
  by_cases hge : (cies g.cie).is_eh = true
  · rw [himp hge] at hfe; exact absurd hfe (by simp)
  · simpa using hge

/-- CIE table for the concrete C1 scenario: CIE 1 is from `.eh_frame`,
every other index from `.debug_frame`. -/
def c1_cies : Nat → drgn_dwarf_cie :=
  fun i => if i = 1 then { sample_cie with is_eh := true } else sample_cie

/-- Parsed FDEs of the concrete C1 scenario: a `.eh_frame` and a
`.debug_frame` FDE share `initial_location` 100. -/
def c1_input : List drgn_dwarf_fde :=
  [⟨100, 4, 1⟩, ⟨100, 4, 0⟩, ⟨200, 8, 1⟩]

/-- The same FDEs sorted under the comparator. -/
def c1_sorted : List drgn_dwarf_fde :=
  [⟨100, 4, 0⟩, ⟨100, 4, 1⟩, ⟨200, 8, 1⟩]

theorem claim_C1_witness :
    List.Pairwise (fun a b => a.initial_location < b.initial_location)
        (drgn_dedup_fdes c1_sorted) ∧
      ∀ f ∈ c1_input, (c1_cies f.cie).is_eh = false →
        ∀ g ∈ drgn_dedup_fdes c1_sorted,
          g.initial_location = f.initial_location → (c1_cies g.cie).is_eh = false :=
  claim_C1_theorem c1_cies c1_input c1_sorted (by decide) (by decide)

/-!
## CIE augmentation validation (`drgn_parse_dwarf_cie`) and unknown opcodes
-/

/-- The augmentation-string validation loop of `drgn_parse_dwarf_cie`
(characters as byte values: `z` = 122, `L` = 76, `P` = 80, `R` = 82,
`S` = 83): `z` is legal only at index 0, `L`/`P`/`R` require the string to
begin with `z`, `S` sets the signal-frame flag, and anything else fails the
CIE parse. -/
def drgn_cie_augmentation_walk (zfirst : Bool) : Bool → Nat → List Nat → Except DrgnErr Bool
  | sf, _, [] => .ok sf
  | sf, i, c :: rest =>
    if c = 122 then
      if i ≠ 0 then .error .unknown_augmentation
      else drgn_cie_augmentation_walk zfirst sf (i + 1) rest
    else if c = 76 ∨ c = 80 ∨ c = 82 then
      if zfirst = false then .error .unknown_augmentation
      else drgn_cie_augmentation_walk zfirst sf (i + 1) rest
    else if c = 83 then drgn_cie_augmentation_walk zfirst true (i + 1) rest
    else .error .unknown_augmentation

/-- Augmentation validation of a whole CIE augmentation string, returning
the signal-frame flag on success. -/
def drgn_parse_cie_augmentation (aug : List Nat) : Except DrgnErr Bool :=
  drgn_cie_augmentation_walk (decide (aug.headD 0 = 122)) false 0 aug

/-- Spec-side description of an invalid augmentation string: some character
outside `z`/`L`/`P`/`R`/`S`, a `z` that is not first, or an `L`/`P`/`R`
without a leading `z`. -/
def aug_invalid (aug : List Nat) : Prop :=
  (∃ c ∈ aug, c ≠ 122 ∧ c ≠ 76 ∧ c ≠ 80 ∧ c ≠ 82 ∧ c ≠ 83) ∨
  122 ∈ aug.drop 1 ∨
  ((∃ c ∈ aug, c = 76 ∨ c = 80 ∨ c = 82) ∧ aug.headD 0 ≠ 122)

theorem aug_walk_tail (zf : Bool) : ∀ (cs : List Nat) (sf : Bool) (i : Nat),
    drgn_cie_augmentation_walk zf sf (i + 1) cs = .error .unknown_augmentation ↔
      ∃ c ∈ cs, ¬(c = 83 ∨ ((c = 76 ∨ c = 80 ∨ c = 82) ∧ zf = true)) := by
  intro cs
  induction cs with
  | nil =>
    intro sf i
    simp [drgn_cie_augmentation_walk]
  | cons c rest ih =>
    intro sf i
    unfold drgn_cie_augmentation_walk
    by_cases hz : c = 122
    · subst hz
      simp only [if_pos rfl, if_pos (by omega : i + 1 ≠ 0)]
      simp
    · rw [if_neg hz]
      by_cases hlpr : c = 76 ∨ c = 80 ∨ c = 82
      · rw [if_pos hlpr]
        by_cases hzf : zf = false
        · rw [if_pos hzf]
          subst hzf
          constructor
          · intro _
            exact ⟨c, List.mem_cons_self _ _, by
              rintro (h | ⟨_, h⟩)
              · rcases hlpr with hc | hc | hc <;> omega
              · simp at h⟩
          · intro _; rfl
        · rw [if_neg hzf]
          have hzt : zf = true := by revert hzf; cases zf <;> simp
          subst hzt
          rw [ih sf (i + 1)]
          constructor
          · rintro ⟨x, hx, hbad⟩
            exact ⟨x, List.mem_cons_of_mem _ hx, hbad⟩
          · rintro ⟨x, hx, hbad⟩
            rcases List.mem_cons.mp hx with h | h
            · subst h
              exact absurd (Or.inr ⟨hlpr, rfl⟩) hbad
            · exact ⟨x, h, hbad⟩
      · rw [if_neg hlpr]
        by_cases hs : c = 83
        · rw [if_pos hs]
          rw [ih true (i + 1)]
          constructor
          · rintro ⟨x, hx, hbad⟩
            exact ⟨x, List.mem_cons_of_mem _ hx, hbad⟩
          · rintro ⟨x, hx, hbad⟩
            rcases List.mem_cons.mp hx with h | h
            · subst h; exact absurd (Or.inl hs) hbad
            · exact ⟨x, h, hbad⟩
        · rw [if_neg hs]
          constructor
          · intro _
            exact ⟨c, List.mem_cons_self _ _, by
              rintro (h | ⟨h, _⟩)
              · exact hs h
              · exact hlpr h⟩
          · intro _; rfl

theorem aug_parse_error_iff (aug : List Nat) :
    drgn_parse_cie_augmentation aug = .error .unknown_augmentation ↔
      aug_invalid aug := by
  unfold drgn_parse_cie_augmentation aug_invalid
  cases aug with
  | nil => simp [drgn_cie_augmentation_walk]
  | cons c rest =>
    have hhead : (c :: rest).headD 0 = c := rfl
    rw [hhead]
    by_cases hz : c = 122
    · subst hz
      have hstep : drgn_cie_augmentation_walk (decide ((122 : Nat) = 122)) false 0
          (122 :: rest) = drgn_cie_augmentation_walk true false (0 + 1) rest := by
        simp [drgn_cie_augmentation_walk]
      rw [hstep, aug_walk_tail true rest false 0]
      constructor
      · rintro ⟨x, hx, hbad⟩
        by_cases hx122 : x = 122
        · subst hx122
          exact Or.inr (Or.inl (by simpa using hx))
        · have h83 : x ≠ 83 := fun h => hbad (Or.inl h)
          have h76 : x ≠ 76 := fun h => hbad (Or.inr ⟨Or.inl h, rfl⟩)
          have h80 : x ≠ 80 := fun h => hbad (Or.inr ⟨Or.inr (Or.inl h), rfl⟩)
          have h82 : x ≠ 82 := fun h => hbad (Or.inr ⟨Or.inr (Or.inr h), rfl⟩)
          exact Or.inl ⟨x, List.mem_cons_of_mem _ hx, hx122, h76, h80, h82, h83⟩
      · rintro (⟨x, hx, h122, h76, h80, h82, h83⟩ | h | ⟨_, hne⟩)
        · rcases List.mem_cons.mp hx with h | h
          · omega
          · refine ⟨x, h, ?_⟩
            rintro (hc | ⟨hc, _⟩)
            · exact h83 hc
            · rcases hc with hc | hc | hc
              · exact h76 hc
              · exact h80 hc
              · exact h82 hc
        · refine ⟨122, by simpa using h, ?_⟩
          rintro (hc | ⟨hc | hc | hc, _⟩) <;> omega
        · exact absurd rfl hne
    · have hzf : decide ((c : Nat) = 122) = false := by simp [hz]
      rw [hzf]
      by_cases hlpr : c = 76 ∨ c = 80 ∨ c = 82
      · have hstep : drgn_cie_augmentation_walk false false 0 (c :: rest) =
            .error .unknown_augmentation := by
          have hz' : ¬ c = 122 := hz
          unfold drgn_cie_augmentation_walk
          rw [if_neg hz', if_pos hlpr, if_pos rfl]
        rw [hstep]
        constructor
        · intro _
          exact Or.inr (Or.inr ⟨⟨c, List.mem_cons_self _ _, hlpr⟩, hz⟩)
        · intro _; rfl
      · by_cases hs : c = 83
        · subst hs
          have hstep : drgn_cie_augmentation_walk false false 0 (83 :: rest) =
              drgn_cie_augmentation_walk false true (0 + 1) rest := by
            simp [drgn_cie_augmentation_walk]
          rw [hstep, aug_walk_tail false rest true 0]
          constructor
          · rintro ⟨x, hx, hbad⟩
            have h83 : x ≠ 83 := fun h => hbad (Or.inl h)
            by_cases hx122 : x = 122
            · subst hx122
              exact Or.inr (Or.inl (by simpa using hx))
            · by_cases hxlpr : x = 76 ∨ x = 80 ∨ x = 82
              · exact Or.inr (Or.inr ⟨⟨x, List.mem_cons_of_mem _ hx, hxlpr⟩, hz⟩)
              · push_neg at hxlpr
                exact Or.inl ⟨x, List.mem_cons_of_mem _ hx, hx122,
                  hxlpr.1, hxlpr.2.1, hxlpr.2.2, h83⟩
          · rintro (⟨x, hx, h122, h76, h80, h82, h83⟩ | h | ⟨⟨x, hx, hxlpr⟩, _⟩)
            · rcases List.mem_cons.mp hx with h | h
              · omega
              · refine ⟨x, h, ?_⟩
                rintro (hc | ⟨_, hc⟩)
                · exact h83 hc
                · simp at hc
            · refine ⟨122, by simpa using h, ?_⟩
              rintro (hc | ⟨_, hc⟩)
              · omega
              · simp at hc
            · rcases List.mem_cons.mp hx with h | h
              · rw [h] at hxlpr
                rcases hxlpr with hc | hc | hc <;> omega
              · refine ⟨x, h, ?_⟩
                rintro (hc | ⟨_, hcf⟩)
                · rcases hxlpr with h' | h' | h' <;> omega
                · simp at hcf
        · push_neg at hlpr
          have hstep : drgn_cie_augmentation_walk false false 0 (c :: rest) =
              .error .unknown_augmentation := by
            unfold drgn_cie_augmentation_walk
            rw [if_neg hz, if_neg (by tauto : ¬(c = 76 ∨ c = 80 ∨ c = 82)), if_neg hs]
          rw [hstep]
          constructor
          · intro _
            exact Or.inl ⟨c, List.mem_cons_self _ _, hz, hlpr.1, hlpr.2.1, hlpr.2.2, hs⟩
          · intro _; rfl

theorem c9_expr_unknown (ctx : ExprCtx) (expr : List Nat) (fuel : Nat)
    (stack : List Nat) (pos ro : Nat) (hpos : pos < expr.length) (hro : ro ≠ 0)
    (hc : classify_dwarf_op (expr.getD pos 0) = .unknown) :
    drgn_eval_dwarf_expression ctx expr (fuel + 1) stack pos ro =
      .error (.unknown_opcode (expr.getD pos 0)) := by
  rw [drgn_eval_dwarf_expression]
  rw [if_pos hpos, if_neg hro, if_neg (by rw [hc]; intro h; cases h), hc]
  rfl

theorem c9_cfi_unknown (ctx : CfiCtx) (endPos : Nat)
    (irow : Option drgn_cfi_row) (op pos : Nat) (row : drgn_cfi_row) (pc : Nat)
    (stack : List drgn_cfi_row) (hc : classify_cfa_op op = .unknown) :
    drgn_eval_dwarf_cfi_op ctx endPos irow op pos row pc stack =
      .fail (.unknown_cfi_opcode op) := by
  simp [drgn_eval_dwarf_cfi_op, hc]

theorem c9_cfi_go_unknown (ctx : CfiCtx) (endPos : Nat)
    (irow : Option drgn_cfi_row) (fuel pos : Nat) (row : drgn_cfi_row) (pc : Nat)
    (stack : List drgn_cfi_row) (hpos : pos < endPos)
    (hc : classify_cfa_op (ctx.data.getD pos 0) = .unknown) :
    drgn_eval_dwarf_cfi_go ctx endPos irow (fuel + 1) pos row pc stack =
      .error (.unknown_cfi_opcode (ctx.data.getD pos 0)) := by
  rw [drgn_eval_dwarf_cfi_go, if_pos hpos, c9_cfi_unknown ctx endPos irow _ _ row pc stack hc]


/-- Claim C9: every unknown or unsupported construct is reported as a
structured error rather than silently skipped: an unknown DWARF expression
opcode aborts expression evaluation with an error (with e.g.
`DW_OP_push_object_address` 0x97, `DW_OP_call2` 0x98,
`DW_OP_implicit_pointer` 0xa0, `DW_OP_xderef` 0x18 and the vendor opcode
0xe0 all unknown); an unknown CFI opcode aborts CFI execution with an error
(with e.g. 0x17, 0x2e, 0x3f unknown); and a CIE augmentation string fails
the CIE parse exactly when it contains a character other than
`z`/`L`/`P`/`R`/`S`, a `z` that is not first, or `L`/`P`/`R` without a
leading `z`. -/
theorem claim_C9_theorem :
    (∀ (ctx : ExprCtx) (expr : List Nat) (fuel : Nat) (stack : List Nat)
        (pos ro : Nat), pos < expr.length → ro ≠ 0 →
      classify_dwarf_op (expr.getD pos 0) = .unknown →
      drgn_eval_dwarf_expression ctx expr (fuel + 1) stack pos ro =
        .error (.unknown_opcode (expr.getD pos 0))) ∧
    (classify_dwarf_op 0x97 = .unknown ∧ classify_dwarf_op 0x98 = .unknown ∧
      classify_dwarf_op 0xa0 = .unknown ∧ classify_dwarf_op 0x18 = .unknown ∧
      classify_dwarf_op 0xe0 = .unknown) ∧
    (∀ (ctx : CfiCtx) (endPos : Nat) (irow : Option drgn_cfi_row)
        (fuel pos : Nat) (row : drgn_cfi_row) (pc : Nat)
        (stack : List drgn_cfi_row), pos < endPos →
      classify_cfa_op (ctx.data.getD pos 0) = .unknown →
      drgn_eval_dwarf_cfi_go ctx endPos irow (fuel + 1) pos row pc stack =
        .error (.unknown_cfi_opcode (ctx.data.getD pos 0))) ∧
    (classify_cfa_op 0x17 = .unknown ∧ classify_cfa_op 0x2e = .unknown ∧
      classify_cfa_op 0x3f = .unknown) ∧
    (∀ aug : List Nat,
      drgn_parse_cie_augmentation aug = .error .unknown_augmentation ↔
        aug_invalid aug) := by
  exact ⟨c9_expr_unknown, by decide, c9_cfi_go_unknown, by decide,
    aug_parse_error_iff⟩

theorem claim_C9_witness :
    drgn_eval_dwarf_expression sample_ctx32 [0x97] 1 [] 0 5 =
        .error (.unknown_opcode 0x97) ∧
      drgn_eval_dwarf_cfi_go (c10_ctx [0x17]) 1 (some default_row) 1 0
          default_row 100 [] = .error (.unknown_cfi_opcode 0x17) ∧
      drgn_parse_cie_augmentation [122, 81] = .error .unknown_augmentation :=
  ⟨claim_C9_theorem.1 sample_ctx32 [0x97] 0 [] 0 5 (by decide) (by decide)
     (by decide),
   claim_C9_theorem.2.2.1 (c10_ctx [0x17]) 1 (some default_row) 0 0 default_row
     100 [] (by decide) (by decide),
   (claim_C9_theorem.2.2.2.2 [122, 81]).mpr (by unfold aug_invalid; decide)⟩

/-!
## Member bit offsets (`parse_member_offset`)
-/

/-- `parse_member_offset`: compute a member's bit offset from the start of
its record.  `data_member_location` stands for the result of
`drgn_parse_dwarf_data_member_location` (a constant or a
`DW_OP_plus_uconst` block), `member_type_size` for the evaluated member
type's byte size, and `member_bit_size` for the member object's bit size;
arithmetic is on 64-bit unsigned values. -/
def parse_member_offset (data_bit_offset data_member_location : Option Nat)
    (bit_offset_attr byte_size_attr member_type_size : Option Nat)
    (member_bit_size : Nat) (little_endian : Bool) : Except DrgnErr Nat :=
  match data_bit_offset with
  | some b => .ok b
  | none =>
    let off := 8 * data_member_location.getD 0 % 2 ^ 64
    match bit_offset_attr with
    | none => .ok off
    | some bo =>
      if little_endian then
        match byte_size_attr with
        | some bs => .ok (umask_int ((off : Int) + 8 * bs - bo - member_bit_size) 64)
        | none =>
          match member_type_size with
          | some bs =>
            .ok (umask_int ((off : Int) + 8 * bs - bo - member_bit_size) 64)
          | none => .error .missing_member_size
      else .ok ((off + bo) % 2 ^ 64)

theorem umask_int_of_lt (v : Int) (h0 : 0 ≤ v) (h1 : v < 2 ^ 64) :
    umask_int v 64 = v.toNat := by
  unfold umask_int
  rw [Int.emod_eq_of_lt h0 (by exact_mod_cast h1)]

theorem c5_le_attr (dml bo bs bsize : Nat) (h1 : bo + bsize ≤ 8 * bs)
    (h2 : 8 * dml + 8 * bs < 2 ^ 64) :
    parse_member_offset none (some dml) (some bo) (some bs) none bsize true =
      .ok (8 * dml + (8 * bs - bo - bsize)) := by
  unfold parse_member_offset
  simp only [Option.getD_some]
  have hm : 8 * dml % 2 ^ 64 = 8 * dml := Nat.mod_eq_of_lt (by omega)
  rw [hm]
  have hval : ((8 * dml : Nat) : Int) + 8 * bs - bo - bsize =
      ((8 * dml + (8 * bs - bo - bsize) : Nat) : Int) := by
    push_cast
    omega
  rw [hval, umask_int_of_lt _ (by positivity) (by push_cast; omega)]
  rw [Int.toNat_natCast]
  simp

theorem c5_le_type_size (dml bo bs bsize : Nat) (h1 : bo + bsize ≤ 8 * bs)
    (h2 : 8 * dml + 8 * bs < 2 ^ 64) :
    parse_member_offset none (some dml) (some bo) none (some bs) bsize true =
      .ok (8 * dml + (8 * bs - bo - bsize)) := by
  unfold parse_member_offset
  simp only [Option.getD_some]
  have hm : 8 * dml % 2 ^ 64 = 8 * dml := Nat.mod_eq_of_lt (by omega)
  rw [hm]
  have hval : ((8 * dml : Nat) : Int) + 8 * bs - bo - bsize =
      ((8 * dml + (8 * bs - bo - bsize) : Nat) : Int) := by
    push_cast
    omega
  rw [hval, umask_int_of_lt _ (by positivity) (by push_cast; omega)]
  rw [Int.toNat_natCast]
  simp

/-- Claim C5: for a member DIE without `DW_AT_data_bit_offset` but with
`DW_AT_bit_offset`, the computed bit offset starts at
`DW_AT_data_member_location * 8` (0 if absent) and, on a little-endian
target, adds `8 * byte_size - bit_offset - bit_size` with the byte size
taken from `DW_AT_byte_size` if present and otherwise from the member
type's size (an error if neither is available); on a big-endian target it
adds `bit_offset`.  In particular `byte_size = 1, bit_offset(a) = 5,
bit_size(a) = 3` gives offset 0 for `a`, and `bit_offset(b) = 0,
bit_size(b) = 5` gives 3 for `b`. -/
theorem claim_C5_theorem :
    (∀ dml bo bs bsize : Nat, bo + bsize ≤ 8 * bs → 8 * dml + 8 * bs < 2 ^ 64 →
      parse_member_offset none (some dml) (some bo) (some bs) none bsize true =
        .ok (8 * dml + (8 * bs - bo - bsize))) ∧
    (∀ dml bo bs bsize : Nat, bo + bsize ≤ 8 * bs → 8 * dml + 8 * bs < 2 ^ 64 →
      parse_member_offset none (some dml) (some bo) none (some bs) bsize true =
        .ok (8 * dml + (8 * bs - bo - bsize))) ∧
    (∀ dml bo bsize : Nat,
      parse_member_offset none (some dml) (some bo) none none bsize true =
        .error .missing_member_size) ∧
    (∀ (dml bo bsize : Nat) (bsA bsT : Option Nat),
      parse_member_offset none (some dml) (some bo) bsA bsT bsize false =
        .ok ((8 * dml % 2 ^ 64 + bo) % 2 ^ 64)) ∧
    (∀ (dml bsize : Nat) (le : Bool),
      parse_member_offset none (some dml) none none none bsize le =
        .ok (8 * dml % 2 ^ 64)) ∧
    parse_member_offset none none (some 5) (some 1) none 3 true = .ok 0 ∧
    parse_member_offset none none (some 0) (some 1) none 5 true = .ok 3 :=
  ⟨c5_le_attr, c5_le_type_size, fun _ _ _ => rfl, fun _ _ _ _ _ => rfl,
   fun _ _ _ => rfl, by rfl, by rfl⟩

theorem claim_C5_witness :
    parse_member_offset none (some 0) (some 5) (some 1) none 3 true =
        .ok (8 * 0 + (8 * 1 - 5 - 3)) ∧
      parse_member_offset none (some 2) (some 0) none (some 4) 5 true =
        .ok (8 * 2 + (8 * 4 - 0 - 5)) :=
  ⟨claim_C5_theorem.1 0 5 1 3 (by decide) (by norm_num),
   claim_C5_theorem.2.1 2 0 4 5 (by decide) (by norm_num)⟩

/-!
## Type-construction recursion depth (`drgn_type_from_dwarf_internal`)
-/

/-- Reduced DIE for the type-construction recursion model: only the
`DW_AT_type`-style reference that `drgn_type_from_dwarf_internal` recurses
into is kept. -/
structure ModelDie where
  type_ref : Option Nat

/-- Recursion-depth discipline of `drgn_type_from_dwarf_internal`: the
entry check rejects `depth >= 1000` with a structured recursion error
before anything else; each nested type reference is resolved at
`depth + 1`.  Tag dispatch and memoization are elided as they only reduce
recursion; the result counts the reference-chain length. -/
def drgn_type_from_dwarf_internal (dies : Nat → Option ModelDie) :
    Nat → Nat → Nat → Except DrgnErr Nat
  | fuel, depth, addr =>
    if 1000 ≤ depth then .error .recursion
    else
      match dies addr with
      | none => .error .missing_die
      | some d =>
        match d.type_ref with
        | none => .ok 0
        | some r =>
          match fuel with
          | 0 => .error .out_of_fuel
          | fuel + 1 =>
            match drgn_type_from_dwarf_internal dies fuel (depth + 1) r with
            | .error e => .error e
            | .ok n => .ok (n + 1)

theorem tfd_fuel_irrel : ∀ (k : Nat) (dies : Nat → Option ModelDie)
    (f1 f2 depth addr : Nat), 1000 ≤ depth + k → k ≤ f1 → k ≤ f2 →
    drgn_type_from_dwarf_internal dies f1 depth addr =
      drgn_type_from_dwarf_internal dies f2 depth addr := by
  intro k
  induction k with
  | zero =>
    intro dies f1 f2 depth addr h _ _
    rw [drgn_type_from_dwarf_internal, drgn_type_from_dwarf_internal,
      if_pos (by omega), if_pos (by omega)]
  | succ k ih =>
    intro dies f1 f2 depth addr h h1 h2
    rw [drgn_type_from_dwarf_internal, drgn_type_from_dwarf_internal]
    by_cases hd : 1000 ≤ depth
    · rw [if_pos hd, if_pos hd]
    · rw [if_neg hd, if_neg hd]
      rcases hda : dies addr with _ | ⟨_ | r⟩
      · rfl
      · rfl
      · cases f1 with
        | zero => omega
        | succ f1' =>
          cases f2 with
          | zero => omega
          | succ f2' =>
            show (match drgn_type_from_dwarf_internal dies f1' (depth + 1) r with
              | .error e => (.error e : Except DrgnErr Nat)
              | .ok n => .ok (n + 1)) =
              (match drgn_type_from_dwarf_internal dies f2' (depth + 1) r with
              | .error e => .error e
              | .ok n => .ok (n + 1))
            rw [ih dies f1' f2' (depth + 1) r (by omega) (by omega) (by omega)]

/-- A DIE graph with a self-referential type at address 0. -/
def cyclic_dies : Nat → Option ModelDie := fun a => if a = 0 then some ⟨some 0⟩ else none

theorem cyclic_recursion_err : ∀ (f depth : Nat), 1000 - depth ≤ f →
    drgn_type_from_dwarf_internal cyclic_dies f depth 0 = .error .recursion := by
  intro f
  induction f with
  | zero =>
    intro depth h
    rw [drgn_type_from_dwarf_internal, if_pos (by omega)]
  | succ f ih =>
    intro depth h
    rw [drgn_type_from_dwarf_internal]
    by_cases hd : 1000 ≤ depth
    · rw [if_pos hd]
    · rw [if_neg hd]
      show (match drgn_type_from_dwarf_internal cyclic_dies f (depth + 1) 0 with
        | .error e => (.error e : Except DrgnErr Nat)
        | .ok n => .ok (n + 1)) = .error .recursion
      rw [ih (depth + 1) (by omega)]


/-- Claim C8: every DWARF expression evaluation executes at most its
10,000-operation budget — the budget is decremented once per iteration,
shared with any nested frame-base evaluation (so the remaining budget never
increases and the executed count is bounded by 10,000 for the top-level
wrapper), and exhausting it raises a structured error, as the backward-jump
expression `DW_OP_skip -3` demonstrates instead of looping forever; and
type construction refuses to recurse past depth 1000 with a structured
recursion error, so 1001 frames always suffice and a self-referential type
DIE fails with the recursion error. -/
theorem claim_C8_theorem :
    (∀ (fuel : Nat) (ctx : ExprCtx) (expr stack : List Nat) (pos ro : Nat)
        (s : List Nat) (p r : Nat),
      drgn_eval_dwarf_expression ctx expr fuel stack pos ro = .ok (s, p, r) →
        r ≤ ro) ∧
    (∀ (ctx : ExprCtx) (expr : List Nat) (fuel : Nat) (stack : List Nat)
        (pos : Nat), pos < expr.length →
      drgn_eval_dwarf_expression ctx expr (fuel + 1) stack pos 0 =
        .error .too_many_ops) ∧
    drgn_eval_dwarf_expression_top sample_ctx32 [0x2f, 0xfd, 0xff] =
      .error .too_many_ops ∧
    (∀ (dies : Nat → Option ModelDie) (fuel depth addr : Nat), 1000 ≤ depth →
      drgn_type_from_dwarf_internal dies fuel depth addr = .error .recursion) ∧
    (∀ (dies : Nat → Option ModelDie) (fuel addr : Nat), 1001 ≤ fuel →
      drgn_type_from_dwarf_internal dies fuel 0 addr =
        drgn_type_from_dwarf_internal dies 1001 0 addr) ∧
    drgn_type_from_dwarf_internal cyclic_dies 1001 0 0 = .error .recursion := by
  refine ⟨fun fuel => (eval_fb_ro_le fuel).1, ?_, ?_, ?_, ?_, ?_⟩
  · intro ctx expr fuel stack pos hpos
    rw [drgn_eval_dwarf_expression, if_pos hpos, if_pos rfl]
  · have := skip_loop_exhausts MAX_DWARF_EXPR_OPS (MAX_DWARF_EXPR_OPS + 3) []
    simpa [drgn_eval_dwarf_expression_top, MAX_DWARF_EXPR_OPS] using this
  · intro dies fuel depth addr h
    rw [drgn_type_from_dwarf_internal, if_pos h]
  · intro dies fuel addr h
    exact tfd_fuel_irrel 1000 dies fuel 1001 0 addr (by omega) (by omega) (by omega)
  · exact cyclic_recursion_err 1001 0 (by omega)

theorem claim_C8_witness :
    drgn_eval_dwarf_expression sample_ctx32 [0x31] 5 [] 0 7 = .ok ([1], 1, 6) ∧
      (6 : Nat) ≤ 7 ∧
      drgn_eval_dwarf_expression sample_ctx32 [0x31] 3 [] 0 0 =
        .error .too_many_ops ∧
      drgn_type_from_dwarf_internal cyclic_dies 5 1000 0 = .error .recursion ∧
      drgn_type_from_dwarf_internal cyclic_dies 1002 0 0 =
        drgn_type_from_dwarf_internal cyclic_dies 1001 0 0 :=
  ⟨by rfl,
   claim_C8_theorem.1 5 sample_ctx32 [0x31] [] 0 7 [1] 1 6 (by rfl),
   claim_C8_theorem.2.1 sample_ctx32 [0x31] 2 [] 0 (by decide),
   claim_C8_theorem.2.2.2.1 cyclic_dies 5 1000 0 (by decide),
   claim_C8_theorem.2.2.2.2.1 cyclic_dies 1002 0 (by decide)⟩

/-!
## DWARF 4 location lists (`drgn_dwarf4_location_list`)
-/

/-- Base-address resolution inside the `.debug_loc` walk: the running base
if one has been set, otherwise the CU's `DW_AT_low_pc` (an error when
`dwarf_lowpc` fails). -/
def d4_resolve_base (low_pc : Option Nat) (base : Nat) (bv : Bool) :
    Except DrgnErr Nat :=
  if bv then .ok base
  else
    match low_pc with
    | none => .error .no_low_pc
    | some l => .ok l

/-- Main loop of `drgn_dwarf4_location_list`: read `(start, end)` address
pairs; `(0, 0)` terminates with no expression, `start = uint_max` updates
the base address to `end`, and otherwise the `u16`-sized expression is
returned for the first pair whose `[base+start, base+end)` (64-bit
wrapping) contains the PC. -/
def drgn_dwarf4_location_list_go (data : List Nat) (little : Bool)
    (address_size : Nat) (low_pc : Option Nat) (pc : Nat) :
    Nat → Nat → Nat → Bool → Except DrgnErr (Option (List Nat))
  | 0, _, _, _ => .error .out_of_fuel
  | fuel + 1, pos, base, bv =>
    match read_uint data data.length pos address_size little with
    | none => .error .out_of_bounds
    | some (start, p1) =>
      match read_uint data data.length p1 address_size little with
      | none => .error .out_of_bounds
      | some (endv, p2) =>
        if start = 0 ∧ endv = 0 then .ok none
        else if start = uint_max address_size then
          drgn_dwarf4_location_list_go data little address_size low_pc pc
            fuel p2 endv true
        else
          match d4_resolve_base low_pc base bv with
          | .error e => .error e
          | .ok base' =>
            match read_uint data data.length p2 2 little with
            | none => .error .out_of_bounds
            | some (esz, p3) =>
              if esz > data.length - p3 then .error .out_of_bounds
              else if (base' + start) % 2 ^ 64 ≤ pc ∧ pc < (base' + endv) % 2 ^ 64 then
                .ok (some ((data.drop p3).take esz))
              else
                drgn_dwarf4_location_list_go data little address_size low_pc pc
                  fuel (p3 + esz) base' true

/-- Spec-side decoder of a `.debug_loc` list (following the specification's
words): the resolved `[base+start, base+end)` ranges with their expressions,
in order, with base updates applied. -/
def spec_d4_entries (data : List Nat) (little : Bool) (address_size : Nat)
    (low_pc : Option Nat) :
    Nat → Nat → Nat → Bool → Except DrgnErr (List (Nat × Nat × List Nat))
  | 0, _, _, _ => .error .out_of_fuel
  | fuel + 1, pos, base, bv =>
    match read_uint data data.length pos address_size little with
    | none => .error .out_of_bounds
    | some (start, p1) =>
      match read_uint data data.length p1 address_size little with
      | none => .error .out_of_bounds
      | some (endv, p2) =>
        if start = 0 ∧ endv = 0 then .ok []
        else if start = uint_max address_size then
          spec_d4_entries data little address_size low_pc fuel p2 endv true
        else
          match d4_resolve_base low_pc base bv with
          | .error e => .error e
          | .ok base' =>
            match read_uint data data.length p2 2 little with
            | none => .error .out_of_bounds
            | some (esz, p3) =>
              if esz > data.length - p3 then .error .out_of_bounds
              else
                match spec_d4_entries data little address_size low_pc fuel
                    (p3 + esz) base' true with
                | .error e => .error e
                | .ok es =>
                  .ok (((base' + start) % 2 ^ 64, (base' + endv) % 2 ^ 64,
                    (data.drop p3).take esz) :: es)

/-- First entry whose resolved range contains the PC. -/
def spec_d4_first (pc : Nat) : List (Nat × Nat × List Nat) → Option (List Nat)
  | [] => none
  | (s, e, ex) :: rest => if s ≤ pc ∧ pc < e then some ex else spec_d4_first pc rest

theorem d4_characterization (data : List Nat) (little : Bool)
    (address_size : Nat) (low_pc : Option Nat) (pc : Nat) :
    ∀ (fuel pos base : Nat) (bv : Bool) (es : List (Nat × Nat × List Nat)),
    spec_d4_entries data little address_size low_pc fuel pos base bv = .ok es →
    drgn_dwarf4_location_list_go data little address_size low_pc pc
      fuel pos base bv = .ok (spec_d4_first pc es) := by
  intro fuel
  induction fuel with
  | zero =>
    intro pos base bv es h
    rw [spec_d4_entries] at h
    simp at h
  | succ fuel ih =>
    intro pos base bv es h
    rw [spec_d4_entries] at h
    rw [drgn_dwarf4_location_list_go]
    cases hr1 : read_uint data data.length pos address_size little with
    | none => rw [hr1] at h; simp at h
    | some v1 =>
      obtain ⟨start, p1⟩ := v1
      rw [hr1] at h
      simp only [] at h ⊢
      cases hr2 : read_uint data data.length p1 address_size little with
      | none => rw [hr2] at h; simp at h
      | some v2 =>
        obtain ⟨endv, p2⟩ := v2
        rw [hr2] at h
        simp only [] at h ⊢
        by_cases hterm : start = 0 ∧ endv = 0
        · rw [if_pos hterm] at h ⊢
          cases h
          rfl
        · rw [if_neg hterm] at h ⊢
          by_cases hmax : start = uint_max address_size
          · rw [if_pos hmax] at h ⊢
            exact ih p2 endv true es h
          · rw [if_neg hmax] at h ⊢
            cases hbase : d4_resolve_base low_pc base bv with
            | error e => rw [hbase] at h; simp at h
            | ok base' =>
              rw [hbase] at h
              simp only [] at h ⊢
              cases hr3 : read_uint data data.length p2 2 little with
              | none => rw [hr3] at h; simp at h
              | some v3 =>
                obtain ⟨esz, p3⟩ := v3
                rw [hr3] at h
                simp only [] at h ⊢
                by_cases hsz : esz > data.length - p3
                · rw [if_pos hsz] at h; simp at h
                · rw [if_neg hsz] at h ⊢
                  cases hrec : spec_d4_entries data little address_size low_pc
                      fuel (p3 + esz) base' true with
                  | error e => rw [hrec] at h; simp at h
                  | ok es' =>
                    rw [hrec] at h
                    simp only [Except.ok.injEq] at h
                    subst h
                    by_cases hcov : (base' + start) % 2 ^ 64 ≤ pc ∧
                        pc < (base' + endv) % 2 ^ 64
                    · rw [if_pos hcov]
                      rw [spec_d4_first, if_pos hcov]
                    · rw [if_neg hcov]
                      rw [spec_d4_first, if_neg hcov]
                      exact ih (p3 + esz) base' true es' hrec

/-- `drgn_dwarf4_location_list`: bounds-check the list offset, then walk
from it with no base address set. -/
def drgn_dwarf4_location_list (data : List Nat) (little : Bool)
    (address_size : Nat) (low_pc : Option Nat) (pc offset : Nat) :
    Except DrgnErr (Option (List Nat)) :=
  if offset > data.length then .error .out_of_bounds
  else
    drgn_dwarf4_location_list_go data little address_size low_pc pc
      (data.length - offset + 1) offset 0 false

/-- The spec's `.debug_loc` scenario: entries `(0x1000, 0x1100, [reg0])`
and `(0x1100, 0x1200, [reg1])` followed by the end-of-list terminator
(4-byte little-endian addresses). -/
def d4_example_data : List Nat :=
  [0x00, 0x10, 0, 0, 0x00, 0x11, 0, 0, 1, 0, 0x50,
   0x00, 0x11, 0, 0, 0x00, 0x12, 0, 0, 1, 0, 0x51,
   0, 0, 0, 0, 0, 0, 0, 0]

theorem d4_base_update (data : List Nat) (little : Bool) (address_size : Nat)
    (low_pc : Option Nat) (pc fuel pos base : Nat) (bv : Bool) (s e p1 p2 : Nat)
    (h1 : read_uint data data.length pos address_size little = some (s, p1))
    (h2 : read_uint data data.length p1 address_size little = some (e, p2))
    (hmax : s = uint_max address_size) (hnt : ¬(s = 0 ∧ e = 0)) :
    drgn_dwarf4_location_list_go data little address_size low_pc pc
        (fuel + 1) pos base bv =
      drgn_dwarf4_location_list_go data little address_size low_pc pc
        fuel p2 e true := by
  rw [drgn_dwarf4_location_list_go, h1]
  simp only []
  rw [h2]
  simp only []
  rw [if_neg hnt, if_pos hmax]

/-- Claim C4: walking a DWARF 4 location list selects the expression of the
first entry whose resolved `[base+start, base+end)` range contains the PC,
where a pair with `start` equal to the address-size maximum sets the base
to `end`, other pairs are relative to the running base which defaults to
the CU's `DW_AT_low_pc`, and the `(0, 0)` terminator yields no expression
(absent downstream) — stated as: the walk returns exactly the first
covering entry of the spec-side decode.  With entries
`(0x1000, 0x1100, [reg0])` and `(0x1100, 0x1200, [reg1])` and base 0,
`pc = 0x1150` selects the `reg1` expression and `pc = 0x1200` selects
none. -/
theorem claim_C4_theorem :
    (∀ (data : List Nat) (little : Bool) (address_size : Nat)
        (low_pc : Option Nat) (pc fuel pos base : Nat) (bv : Bool)
        (es : List (Nat × Nat × List Nat)),
      spec_d4_entries data little address_size low_pc fuel pos base bv = .ok es →
      drgn_dwarf4_location_list_go data little address_size low_pc pc
        fuel pos base bv = .ok (spec_d4_first pc es)) ∧
    (∀ (data : List Nat) (little : Bool) (address_size : Nat)
        (low_pc : Option Nat) (pc fuel pos base : Nat) (bv : Bool)
        (s e p1 p2 : Nat),
      read_uint data data.length pos address_size little = some (s, p1) →
      read_uint data data.length p1 address_size little = some (e, p2) →
      s = uint_max address_size → ¬(s = 0 ∧ e = 0) →
      drgn_dwarf4_location_list_go data little address_size low_pc pc
          (fuel + 1) pos base bv =
        drgn_dwarf4_location_list_go data little address_size low_pc pc
          fuel p2 e true) ∧
    (∀ (low_pc base : Nat),
      d4_resolve_base (some low_pc) base false = .ok low_pc) ∧
    (∀ (low_pc : Option Nat) (base : Nat),
      d4_resolve_base low_pc base true = .ok base) ∧
    drgn_dwarf4_location_list d4_example_data true 4 (some 0) 0x1150 0 =
      .ok (some [0x51]) ∧
    drgn_dwarf4_location_list d4_example_data true 4 (some 0) 0x1200 0 =
      .ok none :=
  ⟨fun data little address_size low_pc pc =>
    d4_characterization data little address_size low_pc pc,
   d4_base_update, fun _ _ => rfl, fun _ _ => rfl, by rfl, by rfl⟩

theorem claim_C4_witness :
    drgn_dwarf4_location_list_go d4_example_data true 4 (some 0) 0x1150
        31 0 0 false =
      .ok (spec_d4_first 0x1150
        [(0x1000, 0x1100, [0x50]), (0x1100, 0x1200, [0x51])]) ∧
      drgn_dwarf4_location_list_go [0xff, 0xff, 0xff, 0xff, 0x34, 0x12, 0, 0]
          true 4 (some 0) 5 2 0 7 false =
        drgn_dwarf4_location_list_go [0xff, 0xff, 0xff, 0xff, 0x34, 0x12, 0, 0]
          true 4 (some 0) 5 1 8 0x1234 true :=
  ⟨claim_C4_theorem.1 d4_example_data true 4 (some 0) 0x1150 31 0 0 false
     [(0x1000, 0x1100, [0x50]), (0x1100, 0x1200, [0x51])] (by rfl),
   claim_C4_theorem.2.1 [0xff, 0xff, 0xff, 0xff, 0x34, 0x12, 0, 0] true 4
     (some 0) 5 1 0 7 false 0xffffffff 0x1234 4 8 (by rfl) (by rfl) (by rfl)
     (by decide)⟩

/-- Context for the DWARF 5 location-list walk `drgn_dwarf5_location_list`
(`src/libdrgn/type_index.h:1050-1156`): the `.debug_loclists` bytes, the
byte order and address size of the CU, the `.debug_addr` table behind
`drgn_dwarf_next_addrx` (modelled as a partial map, since `binary_buffer`
and the addrx helper live outside `src/`), and the CU or function
`DW_AT_low_pc` used when no base address has been established. -/
structure Loclist5Ctx where
  data : List Nat
  little_endian : Bool
  address_size : Nat
  addr_table : Nat → Option Nat
  low_pc : Option Nat

/-- `uint64_t` subtraction (the C code computes `end - start` in `uint64_t`). -/
def sub64 (a b : Nat) : Nat := umask_int ((a : Int) - b) 64

/-- `uint64_t` addition (the C code computes `base + start` in `uint64_t`). -/
def add64 (a b : Nat) : Nat := (a + b) % 2 ^ 64

/-- `DW_FORM_addrx`-style operand: a ULEB128 index resolved through the
unit's `.debug_addr` table; errors if the bytes run out or the index has
no entry. The helper itself is outside `src/`, so it is modelled from the
spec's description of the addrx lookups. -/
def drgn_dwarf_next_addrx (ctx : Loclist5Ctx) (pos : Nat) :
    Except DrgnErr (Nat × Nat) :=
  match read_uleb ctx.data ctx.data.length pos with
  | none => .error .out_of_bounds
  | some (idx, p') =>
    match ctx.addr_table idx with
    | none => .error .addr_table_error
    | some v => .ok (v, p')

/-- A counted expression block: ULEB128 length followed by that many
expression bytes (`binary_buffer_next_uleb128` + bounds check in the C
code). -/
def lle_read_counted (ctx : Loclist5Ctx) (pos : Nat) :
    Except DrgnErr (List Nat × Nat) :=
  match read_uleb ctx.data ctx.data.length pos with
  | none => .error .out_of_bounds
  | some (esz, p') =>
    if esz > ctx.data.length - p' then .error .out_of_bounds
    else .ok ((ctx.data.drop p').take esz, p' + esz)

/-- Base address used by `DW_LLE_offset_pair`: the established base if one
was set (`DW_LLE_base_address`/`base_addressx` or an earlier resolution),
otherwise the unit's `DW_AT_low_pc`, erroring when that is also absent
(`type_index.h:1094-1104`). -/
def lle_resolve_base (ctx : Loclist5Ctx) (base : Nat) (bv : Bool) :
    Except DrgnErr Nat :=
  if bv then .ok base
  else
    match ctx.low_pc with
    | none => .error .no_low_pc
    | some l => .ok l

/-- The loop of `drgn_dwarf5_location_list` (`type_index.h:1050-1156`) on
kinds `DW_LLE_end_of_list`(0), `base_addressx`(1), `startx_endx`(2),
`startx_length`(3), `offset_pair`(4), `default_location`(5),
`base_address`(6), `start_end`(7), `start_length`(8). A covering ranged
entry returns its expression immediately; `default_location` stores its
expression in `dflt` and keeps walking; `end_of_list` returns the stored
default. `fuel` bounds the iteration count (one unit per entry); it is a
model artifact, ample fuel being supplied by callers. -/
def drgn_dwarf5_location_list_go (ctx : Loclist5Ctx) (pc : Nat) :
    Nat → Nat → Nat → Bool → Option (List Nat) →
      Except DrgnErr (Option (List Nat))
  | 0, _, _, _, _ => .error .out_of_fuel
  | fuel + 1, pos, base, bv, dflt =>
    match read_u8 ctx.data ctx.data.length pos with
    | none => .error .out_of_bounds
    | some (kind, p0) =>
      if kind = 0 then .ok dflt
      else if kind = 1 then
        match drgn_dwarf_next_addrx ctx p0 with
        | .error e => .error e
        | .ok (b, p1) =>
          drgn_dwarf5_location_list_go ctx pc fuel p1 b true dflt
      else if kind = 2 then
        match drgn_dwarf_next_addrx ctx p0 with
        | .error e => .error e
        | .ok (s, p1) =>
          match drgn_dwarf_next_addrx ctx p1 with
          | .error e => .error e
          | .ok (e2, p2) =>
            match lle_read_counted ctx p2 with
            | .error e => .error e
            | .ok (expr, p3) =>
              if pc ≥ s ∧ pc - s < sub64 e2 s then .ok (some expr)
              else drgn_dwarf5_location_list_go ctx pc fuel p3 base bv dflt
      else if kind = 3 then
        match drgn_dwarf_next_addrx ctx p0 with
        | .error e => .error e
        | .ok (s, p1) =>
          match read_uleb ctx.data ctx.data.length p1 with
          | none => .error .out_of_bounds
          | some (len, p2) =>
            match lle_read_counted ctx p2 with
            | .error e => .error e
            | .ok (expr, p3) =>
              if pc ≥ s ∧ pc - s < len then .ok (some expr)
              else drgn_dwarf5_location_list_go ctx pc fuel p3 base bv dflt
      else if kind = 4 then
        match read_uleb ctx.data ctx.data.length p0 with
        | none => .error .out_of_bounds
        | some (s, p1) =>
          match read_uleb ctx.data ctx.data.length p1 with
          | none => .error .out_of_bounds
          | some (e2, p2) =>
            match lle_resolve_base ctx base bv with
            | .error e => .error e
            | .ok base' =>
              match lle_read_counted ctx p2 with
              | .error e => .error e
              | .ok (expr, p3) =>
                if pc ≥ add64 s base' ∧ pc - add64 s base' < sub64 e2 s then
                  .ok (some expr)
                else
                  drgn_dwarf5_location_list_go ctx pc fuel p3 base' true dflt
      else if kind = 5 then
        match lle_read_counted ctx p0 with
        | .error e => .error e
        | .ok (expr, p1) =>
          drgn_dwarf5_location_list_go ctx pc fuel p1 base bv (some expr)
      else if kind = 6 then
        match read_uint ctx.data ctx.data.length p0 ctx.address_size
            ctx.little_endian with
        | none => .error .out_of_bounds
        | some (b, p1) =>
          drgn_dwarf5_location_list_go ctx pc fuel p1 b true dflt
      else if kind = 7 then
        match read_uint ctx.data ctx.data.length p0 ctx.address_size
            ctx.little_endian with
        | none => .error .out_of_bounds
        | some (s, p1) =>
          match read_uint ctx.data ctx.data.length p1 ctx.address_size
              ctx.little_endian with
          | none => .error .out_of_bounds
          | some (e2, p2) =>
            match lle_read_counted ctx p2 with
            | .error e => .error e
            | .ok (expr, p3) =>
              if pc ≥ s ∧ pc - s < sub64 e2 s then .ok (some expr)
              else drgn_dwarf5_location_list_go ctx pc fuel p3 base bv dflt
      else if kind = 8 then
        match read_uint ctx.data ctx.data.length p0 ctx.address_size
            ctx.little_endian with
        | none => .error .out_of_bounds
        | some (s, p1) =>
          match read_uleb ctx.data ctx.data.length p1 with
          | none => .error .out_of_bounds
          | some (len, p2) =>
            match lle_read_counted ctx p2 with
            | .error e => .error e
            | .ok (expr, p3) =>
              if pc ≥ s ∧ pc - s < len then .ok (some expr)
              else drgn_dwarf5_location_list_go ctx pc fuel p3 base bv dflt
      else .error (.unknown_lle_kind kind)

/-- Concrete list: `DW_LLE_default_location` with expression `[0x30]`,
then `DW_LLE_start_end` `[0x10, 0x20)` with expression `[0x31]`, then
`DW_LLE_end_of_list`. -/
def lle5_ctx_ex : Loclist5Ctx := {
  data := [5, 1, 0x30, 7, 0x10, 0, 0, 0, 0x20, 0, 0, 0, 1, 0x31, 0]
  little_endian := true
  address_size := 4
  addr_table := fun _ => none
  low_pc := some 0 }

/-- Spec-side view of a location-list entry: either a ranged entry with a
resolved start address and length, or a `default_location`. -/
inductive LLEntry where
  | ranged (start length : Nat) (expr : List Nat)
  | default_loc (expr : List Nat)
deriving DecidableEq

/-- Spec-words decoder for C3 (the second definition allowed for a
refinement claim): decodes the same byte stream into the list of entries,
independent of any PC, so that "no ranged entry anywhere in the list
covers the PC" can be stated over the whole list. Ranged entries record
their resolved start and `uint64` length. -/
def spec_lle_entries (ctx : Loclist5Ctx) :
    Nat → Nat → Nat → Bool → Except DrgnErr (List LLEntry)
  | 0, _, _, _ => .error .out_of_fuel
  | fuel + 1, pos, base, bv =>
    match read_u8 ctx.data ctx.data.length pos with
    | none => .error .out_of_bounds
    | some (kind, p0) =>
      if kind = 0 then .ok []
      else if kind = 1 then
        match drgn_dwarf_next_addrx ctx p0 with
        | .error e => .error e
        | .ok (b, p1) => spec_lle_entries ctx fuel p1 b true
      else if kind = 2 then
        match drgn_dwarf_next_addrx ctx p0 with
        | .error e => .error e
        | .ok (s, p1) =>
          match drgn_dwarf_next_addrx ctx p1 with
          | .error e => .error e
          | .ok (e2, p2) =>
            match lle_read_counted ctx p2 with
            | .error e => .error e
            | .ok (expr, p3) =>
              match spec_lle_entries ctx fuel p3 base bv with
              | .error e => .error e
              | .ok es => .ok (.ranged s (sub64 e2 s) expr :: es)
      else if kind = 3 then
        match drgn_dwarf_next_addrx ctx p0 with
        | .error e => .error e
        | .ok (s, p1) =>
          match read_uleb ctx.data ctx.data.length p1 with
          | none => .error .out_of_bounds
          | some (len, p2) =>
            match lle_read_counted ctx p2 with
            | .error e => .error e
            | .ok (expr, p3) =>
              match spec_lle_entries ctx fuel p3 base bv with
              | .error e => .error e
              | .ok es => .ok (.ranged s len expr :: es)
      else if kind = 4 then
        match read_uleb ctx.data ctx.data.length p0 with
        | none => .error .out_of_bounds
        | some (s, p1) =>
          match read_uleb ctx.data ctx.data.length p1 with
          | none => .error .out_of_bounds
          | some (e2, p2) =>
            match lle_resolve_base ctx base bv with
            | .error e => .error e
            | .ok base' =>
              match lle_read_counted ctx p2 with
              | .error e => .error e
              | .ok (expr, p3) =>
                match spec_lle_entries ctx fuel p3 base' true with
                | .error e => .error e
                | .ok es => .ok (.ranged (add64 s base') (sub64 e2 s) expr :: es)
      else if kind = 5 then
        match lle_read_counted ctx p0 with
        | .error e => .error e
        | .ok (expr, p1) =>
          match spec_lle_entries ctx fuel p1 base bv with
          | .error e => .error e
          | .ok es => .ok (.default_loc expr :: es)
      else if kind = 6 then
        match read_uint ctx.data ctx.data.length p0 ctx.address_size
            ctx.little_endian with
        | none => .error .out_of_bounds
        | some (b, p1) => spec_lle_entries ctx fuel p1 b true
      else if kind = 7 then
        match read_uint ctx.data ctx.data.length p0 ctx.address_size
            ctx.little_endian with
        | none => .error .out_of_bounds
        | some (s, p1) =>
          match read_uint ctx.data ctx.data.length p1 ctx.address_size
              ctx.little_endian with
          | none => .error .out_of_bounds
          | some (e2, p2) =>
            match lle_read_counted ctx p2 with
            | .error e => .error e
            | .ok (expr, p3) =>
              match spec_lle_entries ctx fuel p3 base bv with
              | .error e => .error e
              | .ok es => .ok (.ranged s (sub64 e2 s) expr :: es)
      else if kind = 8 then
        match read_uint ctx.data ctx.data.length p0 ctx.address_size
            ctx.little_endian with
        | none => .error .out_of_bounds
        | some (s, p1) =>
          match read_uleb ctx.data ctx.data.length p1 with
          | none => .error .out_of_bounds
          | some (len, p2) =>
            match lle_read_counted ctx p2 with
            | .error e => .error e
            | .ok (expr, p3) =>
              match spec_lle_entries ctx fuel p3 base bv with
              | .error e => .error e
              | .ok es => .ok (.ranged s len expr :: es)
      else .error (.unknown_lle_kind kind)

/-- First ranged entry covering the PC, per the spec's "a ranged entry
whose range contains the PC is returned immediately when reached". -/
def spec_first_ranged (pc : Nat) : List LLEntry → Option (List Nat)
  | [] => none
  | .ranged s l e :: rest =>
    if pc ≥ s ∧ pc - s < l then some e else spec_first_ranged pc rest
  | .default_loc _ :: rest => spec_first_ranged pc rest

/-- Last `default_location` expression in the list (the spec's
"emitted last-wins"). -/
def spec_last_default : List LLEntry → Option (List Nat)
  | [] => none
  | .ranged _ _ _ :: rest => spec_last_default rest
  | .default_loc e :: rest =>
    match spec_last_default rest with
    | some x => some x
    | none => some e

/-- The spec's stated result: the first covering ranged entry if any,
else the last `default_location`, else the inherited default. -/
def lle_result (pc : Nat) (es : List LLEntry) (dflt : Option (List Nat)) :
    Option (List Nat) :=
  match spec_first_ranged pc es with
  | some e => some e
  | none =>
    match spec_last_default es with
    | some e => some e
    | none => dflt

theorem lle_result_ranged (pc s l : Nat) (ex : List Nat) (rest : List LLEntry)
    (dflt : Option (List Nat)) :
    lle_result pc (.ranged s l ex :: rest) dflt =
      (if pc ≥ s ∧ pc - s < l then some ex else lle_result pc rest dflt) := by
  unfold lle_result
  by_cases h : pc ≥ s ∧ pc - s < l
  · rw [if_pos h]
    rw [spec_first_ranged, if_pos h]
  · rw [if_neg h]
    rw [spec_first_ranged, if_neg h, spec_last_default]

theorem lle_result_default (pc : Nat) (ex : List Nat) (rest : List LLEntry)
    (dflt : Option (List Nat)) :
    lle_result pc (.default_loc ex :: rest) dflt =
      lle_result pc rest (some ex) := by
  unfold lle_result
  rw [spec_first_ranged, spec_last_default]
  cases spec_first_ranged pc rest with
  | some e => rfl
  | none =>
    simp only []
    cases spec_last_default rest with
    | some x => rfl
    | none => rfl

theorem lle_characterization (ctx : Loclist5Ctx) (pc : Nat) :
    ∀ (fuel pos base : Nat) (bv : Bool) (dflt : Option (List Nat))
      (es : List LLEntry),
    spec_lle_entries ctx fuel pos base bv = .ok es →
    drgn_dwarf5_location_list_go ctx pc fuel pos base bv dflt =
      .ok (lle_result pc es dflt) := by
  intro fuel
  induction fuel with
  | zero =>
    intro pos base bv dflt es h
    rw [spec_lle_entries] at h
    simp at h
  | succ fuel ih =>
    intro pos base bv dflt es h
    rw [spec_lle_entries] at h
    rw [drgn_dwarf5_location_list_go]
    cases hr0 : read_u8 ctx.data ctx.data.length pos with
    | none => rw [hr0] at h; simp at h
    | some v0 =>
      obtain ⟨kind, p0⟩ := v0
      rw [hr0] at h
      simp only [] at h ⊢
      by_cases hk0 : kind = 0
      · rw [if_pos hk0] at h ⊢
        cases h
        rfl
      · rw [if_neg hk0] at h ⊢
        by_cases hk1 : kind = 1
        · rw [if_pos hk1] at h ⊢
          cases ha : drgn_dwarf_next_addrx ctx p0 with
          | error e => rw [ha] at h; simp at h
          | ok v =>
            obtain ⟨b, p1⟩ := v
            rw [ha] at h
            simp only [] at h ⊢
            exact ih p1 b true dflt es h
        · rw [if_neg hk1] at h ⊢
          by_cases hk2 : kind = 2
          · rw [if_pos hk2] at h ⊢
            cases ha : drgn_dwarf_next_addrx ctx p0 with
            | error e => rw [ha] at h; simp at h
            | ok v =>
              obtain ⟨s, p1⟩ := v
              rw [ha] at h
              simp only [] at h ⊢
              cases hb : drgn_dwarf_next_addrx ctx p1 with
              | error e => rw [hb] at h; simp at h
              | ok v =>
                obtain ⟨e2, p2⟩ := v
                rw [hb] at h
                simp only [] at h ⊢
                cases hc : lle_read_counted ctx p2 with
                | error e => rw [hc] at h; simp at h
                | ok v =>
                  obtain ⟨expr, p3⟩ := v
                  rw [hc] at h
                  simp only [] at h ⊢
                  cases hrec : spec_lle_entries ctx fuel p3 base bv with
                  | error e => rw [hrec] at h; simp at h
                  | ok es' =>
                    rw [hrec] at h
                    simp only [Except.ok.injEq] at h
                    subst h
                    rw [lle_result_ranged]
                    by_cases hcov : pc ≥ s ∧ pc - s < sub64 e2 s
                    · rw [if_pos hcov, if_pos hcov]
                    · rw [if_neg hcov, if_neg hcov]
                      exact ih p3 base bv dflt es' hrec
          · rw [if_neg hk2] at h ⊢
            by_cases hk3 : kind = 3
            · rw [if_pos hk3] at h ⊢
              cases ha : drgn_dwarf_next_addrx ctx p0 with
              | error e => rw [ha] at h; simp at h
              | ok v =>
                obtain ⟨s, p1⟩ := v
                rw [ha] at h
                simp only [] at h ⊢
                cases hb : read_uleb ctx.data ctx.data.length p1 with
                | none => rw [hb] at h; simp at h
                | some v =>
                  obtain ⟨len, p2⟩ := v
                  rw [hb] at h
                  simp only [] at h ⊢
                  cases hc : lle_read_counted ctx p2 with
                  | error e => rw [hc] at h; simp at h
                  | ok v =>
                    obtain ⟨expr, p3⟩ := v
                    rw [hc] at h
                    simp only [] at h ⊢
                    cases hrec : spec_lle_entries ctx fuel p3 base bv with
                    | error e => rw [hrec] at h; simp at h
                    | ok es' =>
                      rw [hrec] at h
                      simp only [Except.ok.injEq] at h
                      subst h
                      rw [lle_result_ranged]
                      by_cases hcov : pc ≥ s ∧ pc - s < len
                      · rw [if_pos hcov, if_pos hcov]
                      · rw [if_neg hcov, if_neg hcov]
                        exact ih p3 base bv dflt es' hrec
            · rw [if_neg hk3] at h ⊢
              by_cases hk4 : kind = 4
              · rw [if_pos hk4] at h ⊢
                cases ha : read_uleb ctx.data ctx.data.length p0 with
                | none => rw [ha] at h; simp at h
                | some v =>
                  obtain ⟨s, p1⟩ := v
                  rw [ha] at h
                  simp only [] at h ⊢
                  cases hb : read_uleb ctx.data ctx.data.length p1 with
                  | none => rw [hb] at h; simp at h
                  | some v =>
                    obtain ⟨e2, p2⟩ := v
                    rw [hb] at h
                    simp only [] at h ⊢
                    cases hbase : lle_resolve_base ctx base bv with
                    | error e => rw [hbase] at h; simp at h
                    | ok base' =>
                      rw [hbase] at h
                      simp only [] at h ⊢
                      cases hc : lle_read_counted ctx p2 with
                      | error e => rw [hc] at h; simp at h
                      | ok v =>
                        obtain ⟨expr, p3⟩ := v
                        rw [hc] at h
                        simp only [] at h ⊢
                        cases hrec : spec_lle_entries ctx fuel p3 base' true with
                        | error e => rw [hrec] at h; simp at h
                        | ok es' =>
                          rw [hrec] at h
                          simp only [Except.ok.injEq] at h
                          subst h
                          rw [lle_result_ranged]
                          by_cases hcov : pc ≥ add64 s base' ∧
                              pc - add64 s base' < sub64 e2 s
                          · rw [if_pos hcov, if_pos hcov]
                          · rw [if_neg hcov, if_neg hcov]
                            exact ih p3 base' true dflt es' hrec
              · rw [if_neg hk4] at h ⊢
                by_cases hk5 : kind = 5
                · rw [if_pos hk5] at h ⊢
                  cases hc : lle_read_counted ctx p0 with
                  | error e => rw [hc] at h; simp at h
                  | ok v =>
                    obtain ⟨expr, p1⟩ := v
                    rw [hc] at h
                    simp only [] at h ⊢
                    cases hrec : spec_lle_entries ctx fuel p1 base bv with
                    | error e => rw [hrec] at h; simp at h
                    | ok es' =>
                      rw [hrec] at h
                      simp only [Except.ok.injEq] at h
                      subst h
                      rw [lle_result_default]
                      exact ih p1 base bv (some expr) es' hrec
                · rw [if_neg hk5] at h ⊢
                  by_cases hk6 : kind = 6
                  · rw [if_pos hk6] at h ⊢
                    cases ha : read_uint ctx.data ctx.data.length p0
                        ctx.address_size ctx.little_endian with
                    | none => rw [ha] at h; simp at h
                    | some v =>
                      obtain ⟨b, p1⟩ := v
                      rw [ha] at h
                      simp only [] at h ⊢
                      exact ih p1 b true dflt es h
                  · rw [if_neg hk6] at h ⊢
                    by_cases hk7 : kind = 7
                    · rw [if_pos hk7] at h ⊢
                      cases ha : read_uint ctx.data ctx.data.length p0
                          ctx.address_size ctx.little_endian with
                      | none => rw [ha] at h; simp at h
                      | some v =>
                        obtain ⟨s, p1⟩ := v
                        rw [ha] at h
                        simp only [] at h ⊢
                        cases hb : read_uint ctx.data ctx.data.length p1
                            ctx.address_size ctx.little_endian with
                        | none => rw [hb] at h; simp at h
                        | some v =>
                          obtain ⟨e2, p2⟩ := v
                          rw [hb] at h
                          simp only [] at h ⊢
                          cases hc : lle_read_counted ctx p2 with
                          | error e => rw [hc] at h; simp at h
                          | ok v =>
                            obtain ⟨expr, p3⟩ := v
                            rw [hc] at h
                            simp only [] at h ⊢
                            cases hrec : spec_lle_entries ctx fuel p3 base bv with
                            | error e => rw [hrec] at h; simp at h
                            | ok es' =>
                              rw [hrec] at h
                              simp only [Except.ok.injEq] at h
                              subst h
                              rw [lle_result_ranged]
                              by_cases hcov : pc ≥ s ∧ pc - s < sub64 e2 s
                              · rw [if_pos hcov, if_pos hcov]
                              · rw [if_neg hcov, if_neg hcov]
                                exact ih p3 base bv dflt es' hrec
                    · rw [if_neg hk7] at h ⊢
                      by_cases hk8 : kind = 8
                      · rw [if_pos hk8] at h ⊢
                        cases ha : read_uint ctx.data ctx.data.length p0
                            ctx.address_size ctx.little_endian with
                        | none => rw [ha] at h; simp at h
                        | some v =>
                          obtain ⟨s, p1⟩ := v
                          rw [ha] at h
                          simp only [] at h ⊢
                          cases hb : read_uleb ctx.data ctx.data.length p1 with
                          | none => rw [hb] at h; simp at h
                          | some v =>
                            obtain ⟨len, p2⟩ := v
                            rw [hb] at h
                            simp only [] at h ⊢
                            cases hc : lle_read_counted ctx p2 with
                            | error e => rw [hc] at h; simp at h
                            | ok v =>
                              obtain ⟨expr, p3⟩ := v
                              rw [hc] at h
                              simp only [] at h ⊢
                              cases hrec : spec_lle_entries ctx fuel p3 base bv with
                              | error e => rw [hrec] at h; simp at h
                              | ok es' =>
                                rw [hrec] at h
                                simp only [Except.ok.injEq] at h
                                subst h
                                rw [lle_result_ranged]
                                by_cases hcov : pc ≥ s ∧ pc - s < len
                                · rw [if_pos hcov, if_pos hcov]
                                · rw [if_neg hcov, if_neg hcov]
                                  exact ih p3 base bv dflt es' hrec
                      · rw [if_neg hk8] at h ⊢
                        simp at h

/-- **C3.** Walking a DWARF 5 location list for a PC: whenever the byte
stream decodes (per `spec_lle_entries`) to a list of entries, (1) if some
ranged entry covers the PC then the walk returns the expression of the
*first* such entry — immediately upon reaching it, hence with precedence
over any `DW_LLE_default_location` entry regardless of their relative
order; (2) if no ranged entry covers the PC, the walk returns the
expression of the last `default_location` entry (or `none` if there is
none) — so a default expression is returned iff no ranged entry covers
the PC. The concrete list (default `[0x30]`; `start_end` `[0x10,0x20)`
with `[0x31]`) yields `[0x31]` at PC `0x15` even though the default comes
first, and `[0x30]` at PC `0x25`. -/
theorem claim_C3_theorem :
    (∀ (ctx : Loclist5Ctx) (pc fuel pos base : Nat) (bv : Bool)
       (es : List LLEntry) (e : List Nat),
       spec_lle_entries ctx fuel pos base bv = .ok es →
       spec_first_ranged pc es = some e →
       drgn_dwarf5_location_list_go ctx pc fuel pos base bv none =
         .ok (some e)) ∧
    (∀ (ctx : Loclist5Ctx) (pc fuel pos base : Nat) (bv : Bool)
       (es : List LLEntry),
       spec_lle_entries ctx fuel pos base bv = .ok es →
       spec_first_ranged pc es = none →
       drgn_dwarf5_location_list_go ctx pc fuel pos base bv none =
         .ok (spec_last_default es)) ∧
    drgn_dwarf5_location_list_go lle5_ctx_ex 0x15 16 0 0 false none =
      .ok (some [0x31]) ∧
    drgn_dwarf5_location_list_go lle5_ctx_ex 0x25 16 0 0 false none =
      .ok (some [0x30]) := by
  refine ⟨?_, ?_, by rfl, by rfl⟩
  · intro ctx pc fuel pos base bv es e hdec hfr
    rw [lle_characterization ctx pc fuel pos base bv none es hdec]
    unfold lle_result
    rw [hfr]
  · intro ctx pc fuel pos base bv es hdec hfr
    rw [lle_characterization ctx pc fuel pos base bv none es hdec]
    unfold lle_result
    rw [hfr]
    cases spec_last_default es with
    | some x => rfl
    | none => rfl

theorem claim_C3_witness :
    (spec_lle_entries lle5_ctx_ex 16 0 0 false =
       .ok [.default_loc [0x30], .ranged 0x10 0x10 [0x31]] ∧
     spec_first_ranged 0x15
       [.default_loc [0x30], .ranged 0x10 0x10 [0x31]] = some [0x31]) ∧
    drgn_dwarf5_location_list_go lle5_ctx_ex 0x15 16 0 0 false none =
      .ok (some [0x31]) :=
  ⟨⟨by rfl, by rfl⟩,
   claim_C3_theorem.1 lle5_ctx_ex 0x15 16 0 0 false
     [.default_loc [0x30], .ranged 0x10 0x10 [0x31]] [0x31]
     (by rfl) (by rfl)⟩
